import Mathlib

/-!
# The concurrent request runner of `handlers.go`

A shallow embedding of `concurrentRequestHandler` (handlers.go, lines 964-1090) and of the
library routines it relies on (`json.Unmarshal` into the configuration struct, `fmt.Sscanf`
with the format `%d-%d`, `rand.Intn`, `http.Header.Set`), followed by the properties of the
runner.  The handlers `executeQuery` and `forceBrowserReadHandler` of the same file are
embedded as well, with the routines of package strings that `executeQuery` calls.

Conventions of the embedding.

* Go `int` is 64 bits wide.  Values are mathematical integers and every arithmetic result that
  the program computes on parsed input goes through `wrapInt`.  The loop counters `t` and `i`
  are compared with their bounds as mathematical integers: they could wrap only for a bound of
  2^63 - 1, which is not a `float64` value and so never a decoded count.
* A Go string is read by `fmt` rune by rune; rule strings are lists of characters here.  A
  response body is a list of bytes.
* The world outside the program (random source, `http.NewRequest`, the HTTP round trip,
  `json.Marshal`) is an explicit `Env`; the order in which the goroutines reach the mutex is an
  explicit schedule.  Properties are stated for every `Env` and every schedule.
* A run-time panic is the error side of `Except`.  A panic in a goroutine ends the process;
  since the deferred `wg.Done()` still runs, the handler can return a report of what was
  recorded until then before the process is gone, which is `reportBeforeExit`.
-/

namespace Mcp

/-! ## Go maps -/

/-- A Go `map[string]V`: a finite list of entries with pairwise different keys.  The order of
`entries` stands for the (unspecified) order in which `range` visits the map. -/
structure GoMap (V : Type) where
  entries : List (String × V)
  nodup : (entries.map Prod.fst).Nodup

/-- Assignment `m[k] = v` on the entry list: an existing key keeps its place and gets the new
value, a new key is added. -/
def setEntries {V : Type} : List (String × V) → String → V → List (String × V)
  | [], k, v => [(k, v)]
  | (k', v') :: es, k, v => if k' = k then (k, v) :: es else (k', v') :: setEntries es k v

theorem keys_setEntries {V : Type} (es : List (String × V)) (k : String) (v : V) :
    (setEntries es k v).map Prod.fst =
      if k ∈ es.map Prod.fst then es.map Prod.fst else es.map Prod.fst ++ [k] := by
  induction es with
  | nil => simp [setEntries]
  | cons e es ih =>
    obtain ⟨k', v'⟩ := e
    by_cases h : k' = k
    · subst h
      simp [setEntries]
    · have h' : ¬ k = k' := fun e => h e.symm
      by_cases hm : k ∈ es.map Prod.fst
      · simp only [setEntries, if_neg h, List.map_cons, ih, if_pos hm, List.mem_cons, hm,
          or_true, if_true]
      · simp only [setEntries, if_neg h, List.map_cons, ih, if_neg hm, List.mem_cons, h', hm,
          or_self, if_false, List.cons_append]

theorem nodup_setEntries {V : Type} (es : List (String × V)) (k : String) (v : V)
    (h : (es.map Prod.fst).Nodup) : ((setEntries es k v).map Prod.fst).Nodup := by
  rw [keys_setEntries]
  split
  · exact h
  · rename_i hk
    exact List.Nodup.append h (List.nodup_singleton k) (by simpa using hk)

namespace GoMap

/-- The map made by `make(map[string]V)`. -/
def empty {V : Type} : GoMap V := ⟨[], List.nodup_nil⟩

/-- The keys of the map, in `range` order. -/
def keys {V : Type} (m : GoMap V) : List String := m.entries.map Prod.fst

/-- The lookup `m[k]`, `none` for an absent key. -/
def get {V : Type} (m : GoMap V) (k : String) : Option V := m.entries.lookup k

/-- The assignment `m[k] = v`. -/
def set {V : Type} (m : GoMap V) (k : String) (v : V) : GoMap V :=
  ⟨setEntries m.entries k v, nodup_setEntries m.entries k v m.nodup⟩

end GoMap

/-! ## Values and records -/

/-- A decoded JSON value, as `encoding/json` stores it in an `interface{}`.  A JSON number is a
`float64` there; it is kept as the rational it denotes (the finite `float64` values are
rationals; which rationals are `float64` values is not modelled). -/
inductive JSON where
  | null
  | bool (b : Bool)
  | number (q : Rat)
  | string (s : String)
  | array (xs : List JSON)
  | object (kvs : List (String × JSON))

/-- The dynamic values that `params map[string]interface{}` holds in the runner: a decoded JSON
value copied from `cfg.Params`, the rule string itself (a Go string, the same dynamic type as a
decoded JSON string), or the Go `int` produced by the randomizer. -/
inductive GoValue where
  | json (j : JSON)
  | int (n : Int)

/-- The struct `ConcurrentRequestConfig` (handlers.go, lines 18-26). -/
structure ConcurrentRequestConfig where
  URL : String
  Method : String
  Headers : GoMap String
  Params : GoMap GoValue
  Threads : Int
  Iterations : Int
  RandomParam : GoMap String

/-- The struct `RequestResult` (handlers.go, lines 28-34).  `BodyPreview` is a Go string, that
is a sequence of bytes. -/
structure RequestResult where
  Thread : Nat
  Iteration : Nat
  Status : Int
  BodyPreview : List UInt8
  Error : String
  deriving DecidableEq, Repr

/-! ## Machine integers -/

/-- The value of a mathematical integer as a 64-bit two's complement Go `int`. -/
def wrapInt (x : Int) : Int := (x + 2 ^ 63) % 2 ^ 64 - 2 ^ 63

/-- Membership in the range of a Go `int`. -/
def inIntRange (x : Int) : Prop := -(2 ^ 63) ≤ x ∧ x < 2 ^ 63

instance (x : Int) : Decidable (inIntRange x) := by
  unfold inIntRange
  exact inferInstance

/-! ## `fmt.Sscanf(rule, "%d-%d", &min, &max)` -/

/-- The table `space` of fmt/scan.go behind `isSpace`. -/
def isSpace (r : Char) : Bool :=
  let c := r.toNat
  (0x0009 ≤ c && c ≤ 0x000d) || c == 0x0020 || c == 0x0085 || c == 0x00a0 || c == 0x1680 ||
    (0x2000 ≤ c && c ≤ 0x200a) || (0x2028 ≤ c && c ≤ 0x2029) || c == 0x202f || c == 0x205f ||
    c == 0x3000

/-- The constant `hugeWid` of fmt/scan.go: without a width in the verb, `ReadRune` reports end
of input once this many runes are consumed. -/
def hugeWid : Nat := 2 ^ 30

/-- `ss.getRune` followed by a test for `eof`: whether a rune can be read when `count` runes
are consumed and `input` is what remains. -/
def atEOF (count : Nat) (input : List Char) : Bool :=
  decide (hugeWid ≤ count) || input.isEmpty

/-- `ss.SkipSpace` in the mode of `Sscanf` (`nlIsSpace = false`): skips spaces, stops in front
of the first other rune, and fails on a newline.  Returns the new count and the rest. -/
def SkipSpace : Nat → List Char → Except String (Nat × List Char)
  | count, [] => .ok (count, [])
  | count, r :: rest =>
    if hugeWid ≤ count then .ok (count, r :: rest)
    else if r = '\r' ∧ !atEOF (count + 1) rest ∧ rest.head? = some '\n' then
      SkipSpace (count + 1) rest
    else if r = '\n' then .error "unexpected newline"
    else if !isSpace r then .ok (count, r :: rest)
    else SkipSpace (count + 1) rest

/-- `ss.accept(sign)`: consumes one `+` or `-` if it is next; the flag tells a minus. -/
def acceptSign (count : Nat) (input : List Char) : Bool × Nat × List Char :=
  match input with
  | [] => (false, count, [])
  | r :: rest =>
    if hugeWid ≤ count then (false, count, r :: rest)
    else if r = '-' then (true, count + 1, rest)
    else if r = '+' then (false, count + 1, rest)
    else (false, count, r :: rest)

/-- The loop `for s.accept(digits) {}` of `scanNumber` with `digits = "0123456789"`: the
longest run of decimal digits, the new count and the rest. -/
def acceptDigits : Nat → List Char → List Char × Nat × List Char
  | count, [] => ([], count, [])
  | count, r :: rest =>
    if hugeWid ≤ count then ([], count, r :: rest)
    else if r.isDigit then
      let (ds, c, tl) := acceptDigits (count + 1) rest
      (r :: ds, c, tl)
    else ([], count, r :: rest)

/-- The number a run of decimal digits denotes (most significant digit first). -/
def digitsValue (ds : List Char) : Nat :=
  ds.foldl (fun acc d => 10 * acc + (d.toNat - '0'.toNat)) 0

/-- `strconv.ParseInt(tok, 10, 64)` on a token made of an optional sign and digits: the value,
or a range error outside the 64-bit range. -/
def ParseInt (neg : Bool) (ds : List Char) : Except String Int :=
  let v : Int := if neg then -(digitsValue ds : Int) else (digitsValue ds : Int)
  if inIntRange v then .ok v else .error "strconv.ParseInt: value out of range"

/-- `ss.scanInt('d', 64)`: skip space, require input, take an optional sign and at least one
digit, convert. -/
def scanInt (count : Nat) (input : List Char) : Except String (Int × Nat × List Char) := do
  let (c0, in0) ← SkipSpace count input
  if atEOF c0 in0 then throw "EOF"
  let (neg, c1, in1) := acceptSign c0 in0
  if atEOF c1 in1 then throw "EOF"
  let (ds, c2, in2) := acceptDigits c1 in1
  if ds.isEmpty then throw "expected integer"
  let v ← ParseInt neg ds
  pure (v, c2, in2)

/-- `fmt.Sscanf(rule, "%d-%d", &min, &max)`: the pair `(min, max)` when the call returns a nil
error, the error otherwise.  Input left over after the second integer is not an error. -/
def Sscanf (rule : List Char) : Except String (Int × Int) := do
  -- verb %d: doScanf skips space, then scanOne
  let (c0, in0) ← SkipSpace 0 rule
  let (min, c1, in1) ← scanInt c0 in0
  -- literal '-': advance reads one rune and compares
  if atEOF c1 in1 then throw "unexpected EOF"
  match in1 with
  | [] => throw "unexpected EOF"
  | r :: in2 =>
    if r ≠ '-' then throw "input does not match format"
    -- verb %d
    let (c3, in3) ← SkipSpace (c1 + 1) in2
    let (max, _, _) ← scanInt c3 in3
    pure (min, max)

/-! ## The randomizer (handlers.go, lines 999-1008) -/

/-- `rand.Intn(n)`: panics for `n ≤ 0`, and otherwise returns a number in `[0, n)`.  The
global source is not modelled; `draw` is the raw number it supplies for this call, and
`draw % n` ranges over all of `[0, n)` as `draw` varies. -/
def randIntn (n : Int) (draw : Nat) : Except String Int :=
  if n ≤ 0 then .error "invalid argument to Intn" else .ok ((draw : Int) % n)

/-- The value stored under a rule key: `rand.Intn(max-min+1) + min` in `int` arithmetic when
`Sscanf` reads two integers, the rule string itself otherwise. -/
def ruleValue (rule : String) (draw : Nat) : Except String GoValue :=
  match Sscanf rule.toList with
  | .ok (min, max) =>
    match randIntn (wrapInt (wrapInt (max - min) + 1)) draw with
    | .ok r => .ok (.int (wrapInt (r + min)))
    | .error e => .error e
  | .error _ => .ok (.json (.string rule))

/-- The loop `for k, v := range cfg.Params { params[k] = v }`. -/
def copyParams : List (String × GoValue) → GoMap GoValue → GoMap GoValue
  | [], params => params
  | (k, v) :: rest, params => copyParams rest (params.set k v)

/-- The loop `for k, rule := range cfg.RandomParam { ... }`; `draw k` is the raw random number
used for key `k`.  A panic of `rand.Intn` ends the loop. -/
def applyRules (draw : String → Nat) :
    List (String × String) → GoMap GoValue → Except String (GoMap GoValue)
  | [], params => .ok params
  | (k, rule) :: rest, params =>
    match ruleValue rule (draw k) with
    | .ok v => applyRules draw rest (params.set k v)
    | .error e => .error e

/-- The parameter set of one request cycle (lines 994-1008): a fresh map, the static
parameters copied in, then the rule keys assigned. -/
def buildParams (P : GoMap GoValue) (R : GoMap String) (draw : String → Nat) :
    Except String (GoMap GoValue) :=
  applyRules draw R.entries (copyParams P.entries GoMap.empty)

/-! ## Requests -/

/-- The bytes `net/textproto` allows in a header field name (`validHeaderFieldByte`): letters,
digits and the punctuation of an RFC 7230 token. -/
def validHeaderFieldByte (c : Char) : Bool :=
  let n := c.toNat
  (48 ≤ n && n ≤ 57) || (65 ≤ n && n ≤ 90) || (97 ≤ n && n ≤ 122) ||
    n == 33 || (35 ≤ n && n ≤ 39) || n == 42 || n == 43 || n == 45 || n == 46 ||
    n == 94 || n == 95 || n == 96 || n == 124 || n == 126

/-- The rewriting loop of `canonicalMIMEHeaderKey`: upper case for the first letter and for a
letter after a dash, lower case elsewhere. -/
def canonicalLoop : Bool → List Char → List Char
  | _, [] => []
  | upper, c :: cs =>
    let c1 := if upper then c.toUpper else c.toLower
    c1 :: canonicalLoop (c1 == '-') cs

/-- `textproto.CanonicalMIMEHeaderKey`: a key with a byte outside the token set is returned
unchanged, any other key is put in canonical case. -/
def CanonicalMIMEHeaderKey (s : String) : String :=
  if s.toList.all validHeaderFieldByte then String.mk (canonicalLoop true s.toList) else s

/-- `http.Header.Set(key, value)`. -/
def HeaderSet (h : GoMap String) (key value : String) : GoMap String :=
  h.set (CanonicalMIMEHeaderKey key) value

/-- The loop `for hk, hv := range cfg.Headers { req.Header.Set(hk, hv) }`. -/
def setHeaders : List (String × String) → GoMap String → GoMap String
  | [], h => h
  | (hk, hv) :: rest, h => setHeaders rest (HeaderSet h hk hv)

/-- What the runner puts into an `*http.Request`. -/
structure Request where
  Method : String
  URL : String
  Body : List UInt8
  Header : GoMap String

/-- A non-nil Go `error` returned by `http.NewRequest` or `client.Do`.  Both always carry a
text (`net/http: invalid method "x"`, `parse "u": ...`, `Get "u": ...`), so `Error()` is never
the empty string. -/
structure GoError where
  description : String
  nonempty : description ≠ ""

/-- The world outside the program, for one call of the handler. -/
structure Env where
  /-- Raw number delivered by the random source to the `rand.Intn` call of thread `t`,
  iteration `i`, rule key `k`. -/
  randDraw : Nat → Nat → String → Nat
  /-- The function `json.Marshal` on a parameter map. -/
  jsonMarshal : GoMap GoValue → List UInt8
  /-- The error of `http.NewRequest(method, url, body)`, if any. -/
  newRequest : String → String → Option GoError
  /-- The function `client.Do(req)` followed by `ioutil.ReadAll(resp.Body)` in thread `t`,
  iteration `i`: status code and body, or the error of `Do`. -/
  roundTrip : Nat → Nat → Request → Except GoError (Int × List UInt8)

/-- The preview of a response body (lines 1041-1045). -/
def bodyPreview (body : List UInt8) : List UInt8 :=
  if body.length > 100 then body.take 100 else body

/-- Whether the method test `cfg.Method == "POST" || cfg.Method == "PUT"` holds. -/
def sendsBody (method : String) : Bool := method == "POST" || method == "PUT"

/-- The request handed to `client.Do` (lines 1010-1032). -/
def buildRequest (cfg : ConcurrentRequestConfig) (env : Env) (params : GoMap GoValue) :
    Request :=
  let reqBody := if sendsBody cfg.Method then env.jsonMarshal params else []
  let h := setHeaders cfg.Headers.entries GoMap.empty
  let h := if sendsBody cfg.Method then HeaderSet h "Content-Type" "application/json" else h
  { Method := cfg.Method, URL := cfg.URL, Body := reqBody, Header := h }

/-- One request cycle of thread `threadNum`, iteration `i` (the body of the inner loop, lines
993-1064): the record appended to `results`, or the panic that ends the process. -/
def requestCycle (cfg : ConcurrentRequestConfig) (env : Env) (threadNum i : Nat) :
    Except String RequestResult :=
  match buildParams cfg.Params cfg.RandomParam (env.randDraw threadNum i) with
  | .error e => .error e
  | .ok params =>
    match env.newRequest cfg.Method cfg.URL with
    | some err =>
      .ok { Thread := threadNum, Iteration := i, Status := 0, BodyPreview := [],
            Error := err.description }
    | none =>
      match env.roundTrip threadNum i (buildRequest cfg env params) with
      | .ok (status, body) =>
        .ok { Thread := threadNum, Iteration := i, Status := status,
              BodyPreview := bodyPreview body, Error := "" }
      | .error err =>
        .ok { Thread := threadNum, Iteration := i, Status := 0, BodyPreview := [],
              Error := err.description }

/-! ## Threads and the shared result slice -/

/-- The records one goroutine appends, in the order it appends them: the inner loop over the
iterations `is`. -/
def threadLoop (cfg : ConcurrentRequestConfig) (env : Env) (threadNum : Nat) :
    List Nat → Except String (List RequestResult)
  | [] => .ok []
  | i :: is =>
    match requestCycle cfg env threadNum i with
    | .error e => .error e
    | .ok r =>
      match threadLoop cfg env threadNum is with
      | .error e => .error e
      | .ok rs => .ok (r :: rs)

/-- The goroutines started by the outer loop over the thread numbers `ts`, each with the
sequence of records it appends. -/
def spawnThreads (cfg : ConcurrentRequestConfig) (env : Env) (iters : List Nat) :
    List Nat → Except String (List (List RequestResult))
  | [] => .ok []
  | t :: ts =>
    match threadLoop cfg env t iters with
    | .error e => .error e
    | .ok q =>
      match spawnThreads cfg env iters ts with
      | .error e => .error e
      | .ok qs => .ok (q :: qs)

/-- Removes the next pending record of the goroutine at position `n`, if it has one. -/
def takeFrom {α : Type} : Nat → List (List α) → Option (α × List (List α))
  | _, [] => none
  | 0, [] :: _ => none
  | 0, (x :: q) :: qs => some (x, q :: qs)
  | n + 1, q :: qs =>
    match takeFrom n qs with
    | some (x, qs') => some (x, q :: qs')
    | none => none

/-- The content of `results` after `wg.Wait()`.  Appends are serialised by the mutex; the
schedule names, append after append, the goroutine that gets the mutex next (an entry naming
a goroutine with nothing left is skipped).  When the schedule is used up the remaining
goroutines finish one after the other, since `wg.Wait()` returns only after all of them. -/
def collect {α : Type} : List Nat → List (List α) → List α
  | [], qs => qs.flatten
  | s :: sched, qs =>
    match takeFrom s qs with
    | some (x, qs') => x :: collect sched qs'
    | none => collect sched qs

/-! ## The handler -/

/-- The defaults of lines 972-980. -/
def normalize (cfg : ConcurrentRequestConfig) : ConcurrentRequestConfig :=
  let cfg := if cfg.Method = "" then { cfg with Method := "GET" } else cfg
  let cfg := if cfg.Threads < 1 then { cfg with Threads := 1 } else cfg
  if cfg.Iterations < 1 then { cfg with Iterations := 1 } else cfg

/-- The test of line 1075. -/
def isSuccess (r : RequestResult) : Bool :=
  r.Error == "" && decide (r.Status ≥ 200) && decide (r.Status < 300)

/-- The counting loop of lines 1072-1080: `(successCount, failureCount)`. -/
def countResults (results : List RequestResult) : Nat × Nat :=
  results.foldl
    (fun acc r => if isSuccess r then (acc.1 + 1, acc.2) else (acc.1, acc.2 + 1)) (0, 0)

/-- The object marshalled into the text result (lines 1082-1086). -/
structure Report where
  success_count : Nat
  failure_count : Nat
  responses : List RequestResult
  deriving DecidableEq, Repr

/-- An `*mcp.CallToolResult`: an error result or a text result, here with the report that the
text serialises. -/
inductive CallToolResult where
  | error (msg : String)
  | text (report : Report)
  deriving DecidableEq, Repr

/-- The handler from the decoded configuration on (lines 972-1088).  The loop counters `t` and
`i` run from 1 to the thread and iteration count.  The result is the tool result returned, or
the panic of a goroutine, which ends the process; what the handler goroutine can still return
while the process ends is `reportBeforeExit`. -/
def runConfig (env : Env) (sched : List Nat) (cfg : ConcurrentRequestConfig) :
    Except String CallToolResult :=
  let cfg := normalize cfg
  match spawnThreads cfg env (List.range' 1 cfg.Iterations.toNat)
      (List.range' 1 cfg.Threads.toNat) with
  | .error e => .error e
  | .ok queues =>
    let results := collect sched queues
    let counts := countResults results
    .ok (.text { success_count := counts.1, failure_count := counts.2, responses := results })

/-- The records a goroutine has appended when it ends, be it at the end of its loop or in a
panic: the records of the cycles before the first cycle that panics. -/
def threadLoopAppended (cfg : ConcurrentRequestConfig) (env : Env) (threadNum : Nat) :
    List Nat → List RequestResult
  | [] => []
  | i :: is =>
    match requestCycle cfg env threadNum i with
    | .error _ => []
    | .ok r => r :: threadLoopAppended cfg env threadNum is

/-- The report of lines 1069-1088 over what the goroutines have appended when all of them have
ended.  `defer wg.Done()` also runs while a panic unwinds a goroutine, so `wg.Wait()` can
return after a panic, and the handler can assemble and return this report before the runtime
has ended the process. -/
def reportBeforeExit (env : Env) (sched : List Nat) (cfg : ConcurrentRequestConfig) : Report :=
  let cfg := normalize cfg
  let queues := (List.range' 1 cfg.Threads.toNat).map
    (fun t => threadLoopAppended cfg env t (List.range' 1 cfg.Iterations.toNat))
  let results := collect sched queues
  let counts := countResults results
  { success_count := counts.1, failure_count := counts.2, responses := results }

/-! ## Decoding the arguments (handlers.go, lines 966-970) -/

/-- The fields of `ConcurrentRequestConfig`. -/
inductive Field where
  | url | method | headers | params | threads | iterations | random_param
  deriving DecidableEq, Repr

/-- The JSON names of the fields, from the struct tags. -/
def fieldNames : List (String × Field) :=
  [("url", .url), ("method", .method), ("headers", .headers), ("params", .params),
   ("threads", .threads), ("iterations", .iterations), ("random_param", .random_param)]

/-- The function `foldRune` of encoding/json on one rune, as far as it matters for names made
of ASCII letters and `_`: a small ASCII letter becomes the capital, and the two other runes
whose fold set meets ASCII, U+017F and U+212A, become `S` and `K`. -/
def foldRune (c : Char) : Char :=
  if 97 ≤ c.toNat ∧ c.toNat ≤ 122 then c.toUpper
  else if c.toNat = 0x17F then 'S'
  else if c.toNat = 0x212A then 'K'
  else c

/-- The function `foldName` of encoding/json. -/
def foldName (s : String) : List Char := s.toList.map foldRune

/-- The struct field an object key is decoded into: the field with exactly that name, else the
field whose name is equal to the key up to case folding, else none (the key is skipped). -/
def findField (key : String) : Option Field :=
  match fieldNames.lookup key with
  | some f => some f
  | none => (fieldNames.find? (fun p => foldName p.1 == foldName key)).map Prod.snd

/-- Decoding a JSON value into a `string` field holding `cur`: a string is stored, `null`
changes nothing, any other value is an `UnmarshalTypeError`. -/
def decodeString (field : String) (cur : String) : JSON → Except String String
  | .string s => .ok s
  | .null => .ok cur
  | _ => .error ("json: cannot unmarshal value into Go struct field " ++ field ++
      " of type string")

/-- Decoding a JSON value into an `int` field holding `cur`.  The handler marshals the
`float64` of the request back to text first; the text parses as an `int` exactly when the
number is an integer within the 64-bit range. -/
def decodeInt (field : String) (cur : Int) : JSON → Except String Int
  | .number q =>
    if q.den = 1 ∧ inIntRange q.num then .ok q.num
    else .error ("json: cannot unmarshal number into Go struct field " ++ field ++
      " of type int")
  | .null => .ok cur
  | _ => .error ("json: cannot unmarshal value into Go struct field " ++ field ++
      " of type int")

/-- Decoding the members of a JSON object into a `map[string]string`: a string is stored,
`null` stores the empty string, any other member is an `UnmarshalTypeError`. -/
def decodeStringMembers (field : String) :
    List (String × JSON) → GoMap String → Except String (GoMap String)
  | [], m => .ok m
  | (k, .string s) :: rest, m => decodeStringMembers field rest (m.set k s)
  | (k, .null) :: rest, m => decodeStringMembers field rest (m.set k "")
  | _ :: _, _ => .error ("json: cannot unmarshal value into Go struct field " ++ field ++
      " of type string")

/-- Decoding a JSON value into a `map[string]string` field holding `cur`: the members of an
object are added to the map, `null` makes the map nil. -/
def decodeStringMap (field : String) (cur : GoMap String) : JSON → Except String (GoMap String)
  | .object kvs => decodeStringMembers field kvs cur
  | .null => .ok GoMap.empty
  | _ => .error ("json: cannot unmarshal value into Go struct field " ++ field ++
      " of type map[string]string")

/-- Decoding the members of a JSON object into a `map[string]interface{}`. -/
def decodeAnyMembers : List (String × JSON) → GoMap GoValue → GoMap GoValue
  | [], m => m
  | (k, v) :: rest, m => decodeAnyMembers rest (m.set k (.json v))

/-- Decoding a JSON value into a `map[string]interface{}` field holding `cur`. -/
def decodeAnyMap (field : String) (cur : GoMap GoValue) : JSON → Except String (GoMap GoValue)
  | .object kvs => .ok (decodeAnyMembers kvs cur)
  | .null => .ok GoMap.empty
  | _ => .error ("json: cannot unmarshal value into Go struct field " ++ field ++
      " of type map[string]interface {}")

/-- Decoding one member of the argument object into the configuration. -/
def decodeField (cfg : ConcurrentRequestConfig) (key : String) (v : JSON) :
    Except String ConcurrentRequestConfig :=
  match findField key with
  | none => .ok cfg
  | some .url => (decodeString "ConcurrentRequestConfig.url" cfg.URL v).map
      fun x => { cfg with URL := x }
  | some .method => (decodeString "ConcurrentRequestConfig.method" cfg.Method v).map
      fun x => { cfg with Method := x }
  | some .headers => (decodeStringMap "ConcurrentRequestConfig.headers" cfg.Headers v).map
      fun x => { cfg with Headers := x }
  | some .params => (decodeAnyMap "ConcurrentRequestConfig.params" cfg.Params v).map
      fun x => { cfg with Params := x }
  | some .threads => (decodeInt "ConcurrentRequestConfig.threads" cfg.Threads v).map
      fun x => { cfg with Threads := x }
  | some .iterations => (decodeInt "ConcurrentRequestConfig.iterations" cfg.Iterations v).map
      fun x => { cfg with Iterations := x }
  | some .random_param =>
    (decodeStringMap "ConcurrentRequestConfig.random_param" cfg.RandomParam v).map
      fun x => { cfg with RandomParam := x }

/-- Decoding the members of the argument object one after the other.  (`json.Unmarshal` goes
on after a type error and returns the first one at the end; the handler uses nothing of the
configuration in that case.) -/
def decodeMembers : List (String × JSON) → ConcurrentRequestConfig →
    Except String ConcurrentRequestConfig
  | [], cfg => .ok cfg
  | (k, v) :: rest, cfg =>
    match decodeField cfg k v with
    | .ok cfg1 => decodeMembers rest cfg1
    | .error e => .error e

/-- The zero value of `ConcurrentRequestConfig` (`var cfg ConcurrentRequestConfig`). -/
def zeroConfig : ConcurrentRequestConfig where
  URL := ""
  Method := ""
  Headers := GoMap.empty
  Params := GoMap.empty
  Threads := 0
  Iterations := 0
  RandomParam := GoMap.empty

/-- The order `<` of Go strings, on the runes of two valid UTF-8 strings: comparing the bytes
of the encodings is the same as comparing the code points from the left. -/
def stringLess : List Char → List Char → Bool
  | [], [] => false
  | [], _ :: _ => true
  | _ :: _, [] => false
  | a :: as, b :: bs =>
    if a.toNat < b.toNat then true
    else if b.toNat < a.toNat then false
    else stringLess as bs

/-- Insertion of a member into a list of members sorted by key. -/
def insertMember (e : String × JSON) : List (String × JSON) → List (String × JSON)
  | [] => [e]
  | f :: rest =>
    if stringLess e.1.toList f.1.toList then e :: f :: rest else f :: insertMember e rest

/-- The members of a map in the order of their keys, the order in which `json.Marshal` writes
a map. -/
def sortMembers (es : List (String × JSON)) : List (String × JSON) :=
  es.foldr insertMember []

/-- Lines 966-968: `json.Marshal(input)` followed by `json.Unmarshal(data, &cfg)`.  The
arguments are decoded JSON, so `Marshal` succeeds; it writes the keys in sorted order, and
`Unmarshal` decodes the members in that order. -/
def decodeConfig (input : GoMap JSON) : Except String ConcurrentRequestConfig :=
  decodeMembers (sortMembers input.entries) zeroConfig

/-- The handler `concurrentRequestHandler(input)`: the tool result it returns (an error result
when the arguments do not decode, the report otherwise), or the panic of a goroutine. -/
def concurrentRequestHandler (env : Env) (sched : List Nat) (input : GoMap JSON) :
    Except String CallToolResult :=
  match decodeConfig input with
  | .error e => .ok (.error ("参数解析错误: " ++ e))
  | .ok cfg => runConfig env sched cfg

/-- A rule on which the randomizer does not panic: either `Sscanf` fails, or the argument
`max-min+1` handed to `rand.Intn` is positive as an `int`. -/
def ruleSafe (rule : String) : Bool :=
  match Sscanf rule.toList with
  | .ok (min, max) => decide (0 < wrapInt (wrapInt (max - min) + 1))
  | .error _ => true

/-- A rule mapping all of whose rules are safe in the sense of `ruleSafe`. -/
def rulesSafe (R : GoMap String) : Bool := R.entries.all (fun e => ruleSafe e.2)

/-- The grid position a record reports. -/
def RequestResult.cell (r : RequestResult) : Nat × Nat := (r.Thread, r.Iteration)

/-! ## The rule grammar of the specification -/

/-- The grammar of the specification for a range rule, `<int>-<int>`: the whole string is an
integer, a hyphen and an integer, an integer being an optional sign and one or more decimal
digits.  (Written from the specification, to be compared with `Sscanf`.) -/
def specInt (s : List Char) : Bool :=
  match s with
  | '-' :: ds => !ds.isEmpty && ds.all Char.isDigit
  | '+' :: ds => !ds.isEmpty && ds.all Char.isDigit
  | ds => !ds.isEmpty && ds.all Char.isDigit

/-- Whether the whole string matches `<int>-<int>` for some position of the hyphen. -/
def matchesSpecGrammar (s : List Char) : Bool :=
  (List.range s.length).any fun i =>
    s.get? i == some '-' && specInt (s.take i) && specInt (s.drop (i + 1))

/-! ## Concrete inputs -/

/-- A transport in which every request is answered with status 200 and an empty body; the
random source always delivers 0. -/
def server200 : Env where
  randDraw := fun _ _ _ => 0
  jsonMarshal := fun _ => []
  newRequest := fun _ _ => none
  roundTrip := fun _ _ _ => .ok (200, [])

/-- A transport that answers every request with status 200 and a body of 150 bytes. -/
def server150 : Env where
  randDraw := fun _ _ _ => 0
  jsonMarshal := fun _ => []
  newRequest := fun _ _ => none
  roundTrip := fun _ _ _ => .ok (200, List.replicate 150 120)

/-- The rule mapping with the single entry `key: rule`. -/
def singleRule (key rule : String) : GoMap String :=
  ⟨[(key, rule)], List.nodup_singleton key⟩

/-- The static mapping `id: "fixed", page: "1"` of the witness of C8. -/
def exampleParams : GoMap GoValue :=
  ⟨[("id", .json (.string "fixed")), ("page", .json (.string "1"))], by decide⟩

/-- The configuration `url: "http://example.test/ok", method: "GET"` with the given counts and
rules, and without headers or static parameters. -/
def exampleConfig (threads iterations : Int) (rules : GoMap String) :
    ConcurrentRequestConfig where
  URL := "http://example.test/ok"
  Method := "GET"
  Headers := GoMap.empty
  Params := GoMap.empty
  Threads := threads
  Iterations := iterations
  RandomParam := rules

/-- The arguments `url: "http://example.test/ok", method: "GET"` with the given counts and
rules, as the tool call delivers them. -/
def exampleInput (threads iterations : Int) (rules : List (String × JSON)) : GoMap JSON :=
  ⟨[("url", .string "http://example.test/ok"), ("method", .string "GET"),
    ("threads", .number threads), ("iterations", .number iterations),
    ("random_param", .object rules)], by simp⟩

/-- The arguments `url: "", method: "GET", threads: 1, iterations: 1`. -/
def emptyUrlInput : GoMap JSON :=
  ⟨[("url", .string ""), ("method", .string "GET"), ("threads", .number 1),
    ("iterations", .number 1)], by decide⟩

/-- The configuration decoded from `emptyUrlInput`. -/
def emptyUrlConfig : ConcurrentRequestConfig :=
  { exampleConfig 1 1 GoMap.empty with URL := "" }

/-! ## Rules written with `%d-%d` -/

/-- The decimal digits of a natural number, most significant first (`strconv.Itoa` on a
non-negative number). -/
def renderNat (n : Nat) : List Char :=
  if n = 0 then ['0'] else (Nat.digits 10 n).reverse.map Nat.digitChar

/-- The text `strconv.Itoa(z)`, which is also what the verb `%d` prints. -/
def renderInt (z : Int) : List Char :=
  if z < 0 then '-' :: renderNat z.natAbs else renderNat z.natAbs

/-- The rule string `fmt.Sprintf("%d-%d", min, max)`. -/
def formatRule (min max : Int) : String :=
  String.mk (renderInt min ++ '-' :: renderInt max)

/-! ## Further concrete inputs of the runner -/

/-- A transport that answers every request with status 200 and an empty body, with a
`json.Marshal` that writes `{}` for every parameter set. -/
def jsonServer : Env where
  randDraw := fun _ _ _ => 0
  jsonMarshal := fun _ => [123, 125]
  newRequest := fun _ _ => none
  roundTrip := fun _ _ _ => .ok (200, [])

/-- The record of a request cycle, from the answer of the transport (lines 1034-1063). -/
def outcomeOf (threadNum i : Nat) : Except GoError (Int × List UInt8) → RequestResult
  | .ok (status, body) =>
    { Thread := threadNum, Iteration := i, Status := status, BodyPreview := bodyPreview body,
      Error := "" }
  | .error err =>
    { Thread := threadNum, Iteration := i, Status := 0, BodyPreview := [],
      Error := err.description }

/-- The configuration `url: "http://example.test/ok"` with the given method and static
headers, one thread, one iteration. -/
def methodConfig (method : String) (headers : GoMap String) : ConcurrentRequestConfig where
  URL := "http://example.test/ok"
  Method := method
  Headers := headers
  Params := GoMap.empty
  Threads := 1
  Iterations := 1
  RandomParam := GoMap.empty

/-- The static headers `Content-Type: text/plain`. -/
def textPlainHeaders : GoMap String :=
  ⟨[("Content-Type", "text/plain")], List.nodup_singleton _⟩

/-- The arguments of a tool call that uses the declared arguments `headers_json`,
`params_json` and `random_param_json` of main.go. -/
def jsonArgsInput : GoMap JSON :=
  ⟨[("url", .string "http://example.test/ok"), ("method", .string "POST"),
    ("threads", .number 1), ("iterations", .number 1),
    ("headers_json", .string "\x7b\"Authorization\":\"Bearer xxx\"\x7d"),
    ("params_json", .string "\x7b\"a\":\"1\"\x7d"),
    ("random_param_json", .string "\x7b\"id\":\"1-1000\"\x7d")], by decide⟩

/-- The same arguments without the three JSON strings. -/
def plainInput : GoMap JSON :=
  ⟨[("url", .string "http://example.test/ok"), ("method", .string "POST"),
    ("threads", .number 1), ("iterations", .number 1)], by decide⟩

/-- The arguments whose `headers`, `params` and `random_param` hold the mappings that the three
JSON strings of `jsonArgsInput` denote. -/
def decodedArgsInput : GoMap JSON :=
  ⟨[("url", .string "http://example.test/ok"), ("method", .string "POST"),
    ("threads", .number 1), ("iterations", .number 1),
    ("headers", .object [("Authorization", .string "Bearer xxx")]),
    ("params", .object [("a", .string "1")]),
    ("random_param", .object [("id", .string "1-1000")])], by decide⟩

/-- The configuration decoded from `decodedArgsInput`. -/
def decodedArgsConfig : ConcurrentRequestConfig where
  URL := "http://example.test/ok"
  Method := "POST"
  Headers := ⟨[("Authorization", "Bearer xxx")], List.nodup_singleton _⟩
  Params := ⟨[("a", .json (.string "1"))], List.nodup_singleton _⟩
  Threads := 1
  Iterations := 1
  RandomParam := singleRule "id" "1-1000"

/-- The error of a connection that is refused. -/
def connectionRefused : GoError :=
  ⟨"dial tcp 10.255.255.1:80: connect: connection refused", by decide⟩

/-- A transport in which every HTTP call fails with `connectionRefused`. -/
def refusingServer : Env where
  randDraw := fun _ _ _ => 0
  jsonMarshal := fun _ => [123, 125]
  newRequest := fun _ _ => none
  roundTrip := fun _ _ _ => .error connectionRefused

/-! ## `executeQuery` (handlers.go, lines 146-215) -/

/-- A tool result of one of the other handlers: an error result, or a text result with the
object that the text serialises. -/
inductive ToolResult (α : Type) where
  | error (msg : String)
  | text (payload : α)

/-- `unicode.ToUpper`: ASCII by arithmetic, any other rune through the case table of package
unicode, which is the parameter `table`. -/
def unicodeToUpper (table : Char → Char) (r : Char) : Char :=
  if r.toNat ≤ 127 then r.toUpper else table r

/-- `strings.ToUpper` on the runes of a valid UTF-8 string. -/
def ToUpper (table : Char → Char) (s : List Char) : List Char :=
  s.map (unicodeToUpper table)

/-- `strings.TrimSpace`: the string without its leading and trailing white space
(`unicode.IsSpace`, the same set of runes as `isSpace`). -/
def TrimSpace (s : List Char) : List Char :=
  ((s.dropWhile isSpace).reverse.dropWhile isSpace).reverse

/-- `strings.HasPrefix(s, pre)`. -/
def HasPrefix (s pre : List Char) : Bool := pre.isPrefixOf s

/-- `strings.Contains(s, sub)`. -/
def Contains (sub : List Char) : List Char → Bool
  | [] => sub.isEmpty
  | c :: cs => sub.isPrefixOf (c :: cs) || Contains sub cs

/-- A value that `rows.Scan` stores into an `interface{}`: a byte slice, or any other driver
value (kept as the JSON value it is written as). -/
inductive DriverValue where
  | bytes (b : String)
  | other (v : JSON)

/-- What `db.Query` returns without error: the result of `rows.Columns()`, and for every row
that `rows.Next()` announces the result of `rows.Scan`. -/
structure Rows where
  columns : Except String (List String)
  scans : List (Except String (List DriverValue))

/-- The world outside `executeQuery`. -/
structure QueryEnv where
  /-- The case table of package unicode for the runes above ASCII. -/
  upperTable : Char → Char
  /-- The result of converting a `float64` outside the range of `int` to `int`, which the
  language leaves to the implementation. -/
  intOfLarge : Rat → Int
  /-- The function `db.Query(query)`. -/
  query : String → Except String Rows

/-- The conversion `int(l)` of a `float64`: the fraction is discarded. -/
def floatToInt (env : QueryEnv) (l : Rat) : Int :=
  if inIntRange (Int.tdiv l.num l.den) then Int.tdiv l.num l.den else env.intOfLarge l

/-- The map built for one row (lines 192-200): every column with its value, a byte slice as a
string; `values` holds the values of the columns still to come. -/
def buildRow : List String → List DriverValue → GoMap JSON → GoMap JSON
  | [], _, row => row
  | col :: cols, values, row =>
    let cell : JSON :=
      match values.head? with
      | some (.bytes b) => .string b
      | some (.other v) => v
      | none => .null
    buildRow cols values.tail (row.set col cell)

/-- The loop `for rows.Next()` (lines 183-202): the rows read, or the error of a `Scan`. -/
def readRows (columns : List String) :
    List (Except String (List DriverValue)) → Except String (List (GoMap JSON))
  | [] => .ok []
  | .error err :: _ => .error err
  | .ok values :: rest =>
    match readRows columns rest with
    | .ok rows => .ok (buildRow columns values GoMap.empty :: rows)
    | .error err => .error err

/-- The object marshalled into the text result of `executeQuery` (lines 205-210). -/
structure QueryReport where
  query : String
  columns : List String
  rows : List (GoMap JSON)
  count : Nat

/-- The row limit of lines 159-162: the argument `limit` converted to `int` when it is a
number, 100 otherwise. -/
def limitArgument (env : QueryEnv) (request : GoMap JSON) : Int :=
  match request.get "limit" with
  | some (.number l) => floatToInt env l
  | _ => 100

/-- The statement of lines 164-167: the query followed by ` LIMIT <limit>` unless the
upper-cased query contains the letters LIMIT somewhere. -/
def withLimit (env : QueryEnv) (query : String) (limit : Int) : String :=
  if !Contains "LIMIT".toList (ToUpper env.upperTable query.toList) then
    query ++ " LIMIT " ++ String.mk (renderInt limit)
  else query

/-- Lines 170-212: the call of `db.Query` with the statement and the result assembled from
its rows. -/
def runStatement (env : QueryEnv) (query : String) : ToolResult QueryReport :=
  match env.query query with
  | .error err => .error ("查询失败: " ++ err)
  | .ok rows =>
    match rows.columns with
    | .error err => .error err
    | .ok columns =>
      match readRows columns rows.scans with
      | .error err => .error err
      | .ok results =>
        .text { query := query, columns := columns, rows := results, count := results.length }

/-- The handler `executeQuery(request)`: the tool result, and the statements handed to
`db.Query` on the way. -/
def executeQuery (env : QueryEnv) (request : GoMap JSON) :
    ToolResult QueryReport × List String :=
  match request.get "query" with
  | some (.string query) =>
    if query = "" then (.error "query 参数是必需的", [])
    else
      let trimmedQuery := TrimSpace (ToUpper env.upperTable query.toList)
      if !HasPrefix trimmedQuery "SELECT".toList && !HasPrefix trimmedQuery "SHOW".toList &&
          !HasPrefix trimmedQuery "DESCRIBE".toList then
        (.error "只允许执行 SELECT、SHOW 和 DESCRIBE 查询", [])
      else
        let limit := limitArgument env request
        let query := withLimit env query limit
        (runStatement env query, [query])
  | _ => (.error "query 参数是必需的", [])

/-- The test of line 155 with the trimming done first: the query without its surrounding white
space begins, letter case apart, with the letters SELECT, SHOW or DESCRIBE. -/
def isReadQuery (table : Char → Char) (query : String) : Bool :=
  let t := ToUpper table (TrimSpace query.toList)
  HasPrefix t "SELECT".toList || HasPrefix t "SHOW".toList || HasPrefix t "DESCRIBE".toList

/-- A character that can be part of an SQL identifier or keyword. -/
def isWordChar (c : Char) : Bool :=
  c.isAlphanum || c == '_' || c == '$' || decide (127 < c.toNat)

/-- Whether the word LIMIT stands at the head of `s`, `prev` being the character before it:
the five letters in any case, not inside a longer word. -/
def limitWordAt (prev : Option Char) (s : List Char) : Bool :=
  "LIMIT".toList.isPrefixOf (s.map Char.toUpper) &&
    (match prev with
     | some c => !isWordChar c
     | none => true) &&
    (match (s.drop 5).head? with
     | some c => !isWordChar c
     | none => true)

/-- Whether the word LIMIT occurs in the query, which every query with a LIMIT clause of its
own does. -/
def hasLimitWord : Option Char → List Char → Bool
  | _, [] => false
  | prev, c :: cs => limitWordAt prev (c :: cs) || hasLimitWord (some c) cs

/-- Whether the statement `s` begins with the keyword `kw`: its letters in any case, followed
by the end of the statement or by a character that cannot continue a word. -/
def beginsWithKeyword (kw s : List Char) : Bool :=
  kw.isPrefixOf (s.map Char.toUpper) &&
    (match (s.drop kw.length).head? with
     | some c => !isWordChar c
     | none => true)

/-- "A SELECT, SHOW or DESCRIBE query, judged case-insensitively after surrounding whitespace
is removed": the query without its surrounding white space begins with one of the three
keywords.  (Written from the words of the specification, to be compared with the test in
`executeQuery`.) -/
def isSelectShowOrDescribe (query : String) : Bool :=
  let s := TrimSpace query.toList
  beginsWithKeyword "SELECT".toList s || beginsWithKeyword "SHOW".toList s ||
    beginsWithKeyword "DESCRIBE".toList s

/-- The request `query: "SELECTED; DROP TABLE t"`. -/
def selectedRequest : GoMap JSON :=
  ⟨[("query", .string "SELECTED; DROP TABLE t")], by decide⟩

/-- The request `query: "SELECT * FROM limits", limit: 5`. -/
def limitsRequest : GoMap JSON :=
  ⟨[("query", .string "SELECT * FROM limits"), ("limit", .number 5)], by decide⟩

/-- A world in which upper case above ASCII is the identity and every query returns no rows. -/
def emptyDatabase : QueryEnv where
  upperTable := fun c => c
  intOfLarge := fun _ => 0
  query := fun _ => .ok { columns := .ok [], scans := [] }

/-- The request `query: "DROP TABLE users"`. -/
def dropRequest : GoMap JSON :=
  ⟨[("query", .string "DROP TABLE users")], by decide⟩

/-- The request `query: "SELECT * FROM t", limit: 5`. -/
def cappedRequest : GoMap JSON :=
  ⟨[("query", .string "SELECT * FROM t"), ("limit", .number 5)], by decide⟩

/-! ## `forceBrowserReadHandler` (handlers.go, lines 871-886) -/

/-- The object marshalled into the text result of `forceBrowserReadHandler`. -/
structure BrowserReadSteps where
  message : String
  url : String
  next_steps : List String
  deriving DecidableEq, Repr

/-- The handler `forceBrowserReadHandler(req)`: the tool result, or the panic of the type
assertion `req["url"].(string)`, which has no `ok` result. -/
def forceBrowserReadHandler (req : GoMap JSON) : Except String (ToolResult BrowserReadSteps) :=
  match req.get "url" with
  | some (.string url) =>
    if url = "" then .ok (.error "url 参数是必需的")
    else
      .ok (.text { message := "请使用 chrome-devtools-mcp 来打开并读取此网页",
                   url := url,
                   next_steps := ["browser.navigate(url)", "browser.wait_for_dom()",
                                  "browser.get_html()"] })
  | some (.number _) =>
    .error "interface conversion: interface \x7b\x7d is float64, not string"
  | some (.bool _) => .error "interface conversion: interface \x7b\x7d is bool, not string"
  | some (.array _) =>
    .error "interface conversion: interface \x7b\x7d is []interface \x7b\x7d, not string"
  | some (.object _) =>
    .error "interface conversion: interface \x7b\x7d is map[string]interface \x7b\x7d, not string"
  | some .null => .error "interface conversion: interface \x7b\x7d is nil, not string"
  | none => .error "interface conversion: interface \x7b\x7d is nil, not string"

/-- A request in which `url` is a number. -/
def numberUrlRequest : GoMap JSON := ⟨[("url", .number 5)], by decide⟩

/-- A request in which `url` is the empty string. -/
def emptyUrlRequest : GoMap JSON := ⟨[("url", .string "")], by decide⟩

/-- A request with the URL of a page. -/
def pageRequest : GoMap JSON := ⟨[("url", .string "https://example.test/page")], by decide⟩

/-! ## Lemmas on maps -/

theorem lookup_setEntries_self {V : Type} (es : List (String × V)) (k : String) (v : V) :
    (setEntries es k v).lookup k = some v := by
  induction es with
  | nil => simp [setEntries, List.lookup]
  | cons e es ih =>
    obtain ⟨k', v'⟩ := e
    by_cases h : k' = k
    · simp [setEntries, h, List.lookup]
    · have h' : (k == k') = false := by simpa using fun e => h e.symm
      simp [setEntries, h, List.lookup, h', ih]

theorem lookup_setEntries_ne {V : Type} (es : List (String × V)) (k k0 : String) (v : V)
    (hk : k ≠ k0) : (setEntries es k0 v).lookup k = es.lookup k := by
  induction es with
  | nil =>
    have h' : (k == k0) = false := by simpa using hk
    simp [setEntries, List.lookup, h']
  | cons e es ih =>
    obtain ⟨k', v'⟩ := e
    by_cases h : k' = k0
    · subst h
      have h' : (k == k') = false := by simpa using hk
      simp [setEntries, List.lookup, h']
    · simp only [setEntries, if_neg h, List.lookup, ih]

theorem lookup_eq_none_of_not_mem {V : Type} (es : List (String × V)) (k : String)
    (h : k ∉ es.map Prod.fst) : es.lookup k = none := by
  induction es with
  | nil => rfl
  | cons e es ih =>
    obtain ⟨k', v'⟩ := e
    simp only [List.map_cons, List.mem_cons, not_or] at h
    have h' : (k == k') = false := by simpa using h.1
    simp [List.lookup, h', ih h.2]

theorem lookup_isSome_iff {V : Type} (es : List (String × V)) (k : String) :
    (es.lookup k).isSome = true ↔ k ∈ es.map Prod.fst := by
  induction es with
  | nil => simp [List.lookup]
  | cons e es ih =>
    obtain ⟨k', v'⟩ := e
    by_cases h : k = k'
    · simp [List.lookup, h]
    · have h' : (k == k') = false := by simpa using h
      simp [List.lookup, h', ih, h]

theorem lookup_of_mem {V : Type} (es : List (String × V)) (k : String) (v : V)
    (hn : (es.map Prod.fst).Nodup) (h : (k, v) ∈ es) : es.lookup k = some v := by
  induction es with
  | nil => simp at h
  | cons e es ih =>
    obtain ⟨k', v'⟩ := e
    simp only [List.map_cons, List.nodup_cons] at hn
    rcases List.mem_cons.1 h with h | h
    · cases h
      simp [List.lookup]
    · have hk : k ∈ es.map Prod.fst := List.mem_map.2 ⟨(k, v), h, rfl⟩
      have hne : k ≠ k' := fun e => hn.1 (e ▸ hk)
      have h' : (k == k') = false := by simpa using hne
      simp [List.lookup, h', ih hn.2 h]

theorem mem_of_lookup {V : Type} (es : List (String × V)) (k : String) (v : V)
    (h : es.lookup k = some v) : (k, v) ∈ es := by
  induction es with
  | nil => simp [List.lookup] at h
  | cons e es ih =>
    obtain ⟨k', v'⟩ := e
    by_cases hk : k = k'
    · subst hk
      simp [List.lookup] at h
      simp [h]
    · have h' : (k == k') = false := by simpa using hk
      simp only [List.lookup, h'] at h
      exact List.mem_cons_of_mem _ (ih h)

namespace GoMap

theorem get_set_self {V : Type} (m : GoMap V) (k : String) (v : V) :
    (m.set k v).get k = some v := lookup_setEntries_self m.entries k v

theorem get_set_ne {V : Type} (m : GoMap V) (k k0 : String) (v : V) (hk : k ≠ k0) :
    (m.set k0 v).get k = m.get k := lookup_setEntries_ne m.entries k k0 v hk

theorem mem_keys_iff {V : Type} (m : GoMap V) (k : String) :
    k ∈ m.keys ↔ (m.get k).isSome = true := (lookup_isSome_iff m.entries k).symm

theorem get_empty {V : Type} (k : String) : (GoMap.empty : GoMap V).get k = none := rfl

end GoMap

/-! ## Lemmas on the scanner and on machine integers -/

theorem ParseInt_range (neg : Bool) (ds : List Char) (v : Int)
    (h : ParseInt neg ds = .ok v) : inIntRange v := by
  unfold ParseInt at h
  by_cases hr : inIntRange (if neg then -(digitsValue ds : Int) else (digitsValue ds : Int))
  · simp only [if_pos hr, Except.ok.injEq] at h
    rw [← h]
    exact hr
  · simp only [if_neg hr] at h
    cases h

theorem scanInt_range (count : Nat) (input : List Char) (p : Int × Nat × List Char)
    (h : scanInt count input = .ok p) : inIntRange p.1 := by
  unfold scanInt at h
  simp only [bind, Except.bind, pure, Except.pure, throw, throwThe, MonadExceptOf.throw] at h
  repeat' split at h
  all_goals first
    | (cases h; done)
    | (cases h; apply ParseInt_range; assumption)

theorem Sscanf_range (rule : List Char) (min max : Int) (h : Sscanf rule = .ok (min, max)) :
    inIntRange min ∧ inIntRange max := by
  unfold Sscanf at h
  simp only [bind, Except.bind, pure, Except.pure, throw, throwThe, MonadExceptOf.throw] at h
  repeat' split at h
  all_goals first
    | (cases h; done)
    | (cases h
       constructor
       · apply scanInt_range; assumption
       · apply scanInt_range; assumption)

theorem wrapInt_of_inIntRange (x : Int) (h : inIntRange x) : wrapInt x = x := by
  unfold inIntRange at h
  unfold wrapInt
  omega

theorem digitChar_facts : ∀ d < 10, (Nat.digitChar d).isDigit = true ∧
    isSpace (Nat.digitChar d) = false ∧ (Nat.digitChar d).toNat - '0'.toNat = d ∧
    Nat.digitChar d ≠ '-' ∧ Nat.digitChar d ≠ '+' := by decide

theorem renderNat_digits (n : Nat) : ∀ c ∈ renderNat n, c.isDigit = true ∧ isSpace c = false ∧
    c ≠ '-' ∧ c ≠ '+' := by
  intro c hc
  unfold renderNat at hc
  split at hc
  · simp only [List.mem_singleton] at hc
    subst hc
    decide
  · simp only [List.mem_map, List.mem_reverse] at hc
    obtain ⟨d, hd, rfl⟩ := hc
    have := digitChar_facts d (Nat.digits_lt_base (by norm_num) hd)
    exact ⟨this.1, this.2.1, this.2.2.2.1, this.2.2.2.2⟩

theorem renderNat_ne_nil (n : Nat) : renderNat n ≠ [] := by
  unfold renderNat
  split
  · simp
  · rename_i h
    simp [Nat.digits_ne_nil_iff_ne_zero.2 h]

theorem digitsValue_map_digitChar (L : List Nat) (hL : ∀ d ∈ L, d < 10) :
    digitsValue (L.reverse.map Nat.digitChar) = Nat.ofDigits 10 L := by
  unfold digitsValue
  rw [List.foldl_map, List.foldl_reverse]
  induction L with
  | nil => rfl
  | cons d L ih =>
    have hd := (digitChar_facts d (hL d (List.mem_cons_self _ _))).2.2.1
    simp only [List.foldr_cons, Nat.ofDigits_cons]
    rw [ih (fun x hx => hL x (List.mem_cons_of_mem _ hx)), hd]
    omega

theorem digitsValue_renderNat (n : Nat) : digitsValue (renderNat n) = n := by
  unfold renderNat
  split
  · rename_i h
    subst h
    rfl
  · rw [digitsValue_map_digitChar _ (fun d hd => Nat.digits_lt_base (by norm_num) hd),
      Nat.ofDigits_digits]

theorem renderNat_length (n : Nat) (hn : n ≤ 2 ^ 63) : (renderNat n).length ≤ 20 := by
  unfold renderNat
  split
  · simp
  · rename_i h
    simp only [List.length_map, List.length_reverse]
    have h1 := Nat.base_pow_length_digits_le 10 n (by norm_num) h
    by_contra hlen
    have h2 : 10 ^ 21 ≤ 10 ^ (Nat.digits 10 n).length :=
      Nat.pow_le_pow_right (by norm_num) (by omega)
    have h3 : 10 * n ≤ 10 * 2 ^ 63 := Nat.mul_le_mul_left 10 hn
    have h4 : (10 : Nat) * 2 ^ 63 < 10 ^ 21 := by norm_num
    omega

theorem SkipSpace_of_not_space (count : Nat) (c : Char) (rest : List Char)
    (hc : isSpace c = false) : SkipSpace count (c :: rest) = .ok (count, c :: rest) := by
  have h1 : c ≠ '\r' := by
    intro h
    subst h
    revert hc
    decide
  have h2 : c ≠ '\n' := by
    intro h
    subst h
    revert hc
    decide
  unfold SkipSpace
  by_cases hw : hugeWid ≤ count
  · rw [if_pos hw]
  · rw [if_neg hw, if_neg (fun h => h1 h.1), if_neg h2]
    simp [hc]

theorem acceptDigits_append (ds rest : List Char) (count : Nat)
    (hds : ∀ c ∈ ds, c.isDigit = true)
    (hrest : ∀ c, rest.head? = some c → c.isDigit = false)
    (hlen : count + ds.length ≤ hugeWid) :
    acceptDigits count (ds ++ rest) = (ds, count + ds.length, rest) := by
  induction ds generalizing count with
  | nil =>
    cases rest with
    | nil => simp [acceptDigits]
    | cons r rest =>
      have hr := hrest r rfl
      unfold acceptDigits
      by_cases hw : hugeWid ≤ count
      · simp [hw]
      · simp [hw, hr]
  | cons d ds ih =>
    have hd := hds d (List.mem_cons_self _ _)
    simp only [List.length_cons] at hlen
    have hw : ¬ hugeWid ≤ count := by omega
    have := ih (count + 1) (fun c hc => hds c (List.mem_cons_of_mem _ hc)) (by omega)
    rw [List.cons_append]
    simp only [acceptDigits, if_neg hw, hd, if_true, this, List.length_cons]
    have e : count + 1 + ds.length = count + (ds.length + 1) := by omega
    rw [e]

theorem scanInt_steps (count : Nat) (X : List Char) (neg : Bool) (c1 : Nat)
    (ds : List Char) (c2 : Nat) (tl : List Char) (z : Int)
    (hsk : SkipSpace count X = .ok (count, X)) (he0 : atEOF count X = false)
    (hsg : acceptSign count X = (neg, c1, ds ++ tl)) (he1 : atEOF c1 (ds ++ tl) = false)
    (hacc : acceptDigits c1 (ds ++ tl) = (ds, c2, tl)) (hne : ds.isEmpty = false)
    (hpi : ParseInt neg ds = .ok z) : scanInt count X = .ok (z, c2, tl) := by
  unfold scanInt
  simp only [bind, Except.bind, hsk, he0, hsg, he1, hacc, hne, hpi, pure, Except.pure]
  simp

theorem Sscanf_steps (rule in2 : List Char) (min max : Int) (c1 c3 : Nat)
    (hs0 : SkipSpace 0 rule = .ok (0, rule))
    (h1 : scanInt 0 rule = .ok (min, c1, '-' :: in2)) (hw : ¬ hugeWid ≤ c1)
    (hs1 : SkipSpace (c1 + 1) in2 = .ok (c1 + 1, in2))
    (h2 : scanInt (c1 + 1) in2 = .ok (max, c3, [])) : Sscanf rule = .ok (min, max) := by
  unfold Sscanf
  simp only [bind, Except.bind, hs0, h1, atEOF, hs1, h2, pure, Except.pure]
  simp [hw]

theorem scanInt_renderInt (z : Int) (hz : inIntRange z) (count : Nat) (rest : List Char)
    (hcount : count + 21 < hugeWid)
    (hrest : ∀ c, rest.head? = some c → c.isDigit = false) :
    ∃ c', scanInt count (renderInt z ++ rest) = .ok (z, c', rest) ∧ c' ≤ count + 21 := by
  have hzr := hz
  unfold inIntRange at hzr
  have hmle : z.natAbs ≤ 2 ^ 63 := by omega
  have hlen := renderNat_length z.natAbs hmle
  obtain ⟨d, ds, hds⟩ := List.exists_cons_of_ne_nil (renderNat_ne_nil z.natAbs)
  have hdig := renderNat_digits z.natAbs
  have hd := hdig d (by rw [hds]; exact List.mem_cons_self _ _)
  have hacc : ∀ c, c + (renderNat z.natAbs).length ≤ hugeWid →
      acceptDigits c (renderNat z.natAbs ++ rest) =
        (renderNat z.natAbs, c + (renderNat z.natAbs).length, rest) :=
    fun c hc => acceptDigits_append _ rest c (fun x hx => (hdig x hx).1) hrest hc
  have hne : (renderNat z.natAbs).isEmpty = false := by rw [hds]; rfl
  have hw0 : ¬ hugeWid ≤ count := by omega
  have hw1 : ¬ hugeWid ≤ count + 1 := by omega
  by_cases hneg : z < 0
  · refine ⟨count + 1 + (renderNat z.natAbs).length, ?_, by omega⟩
    have hin : renderInt z ++ rest = '-' :: (renderNat z.natAbs ++ rest) := by
      simp [renderInt, hneg]
    rw [hin]
    apply scanInt_steps count _ true (count + 1) (renderNat z.natAbs)
    · exact SkipSpace_of_not_space _ _ _ (by decide)
    · simp [atEOF, hw0]
    · simp [acceptSign, hw0]
    · rw [hds]
      simp [atEOF, hw1]
    · exact hacc (count + 1) (by omega)
    · exact hne
    · unfold ParseInt
      rw [digitsValue_renderNat]
      have : (if true = true then -(z.natAbs : Int) else (z.natAbs : Int)) = z := by
        simp only [if_true]; omega
      rw [this, if_pos hz]
  · refine ⟨count + (renderNat z.natAbs).length, ?_, by omega⟩
    have hin : renderInt z ++ rest = renderNat z.natAbs ++ rest := by
      simp [renderInt, hneg]
    rw [hin]
    apply scanInt_steps count _ false count (renderNat z.natAbs)
    · rw [hds]
      exact SkipSpace_of_not_space _ _ _ hd.2.1
    · rw [hds]
      simp [atEOF, hw0]
    · rw [hds]
      simp [acceptSign, hw0, hd.2.2.1, hd.2.2.2]
    · rw [hds]
      simp [atEOF, hw0]
    · exact hacc count (by omega)
    · exact hne
    · unfold ParseInt
      rw [digitsValue_renderNat]
      have : (if false = true then -(z.natAbs : Int) else (z.natAbs : Int)) = z := by
        simp only [Bool.false_eq_true, if_false]; omega
      rw [this, if_pos hz]

/-- A rule printed with `%d-%d` from two `int` values is scanned back as these values. -/
theorem Sscanf_formatRule (min max : Int) (hmin : inIntRange min) (hmax : inIntRange max) :
    Sscanf (formatRule min max).toList = .ok (min, max) := by
  have hh : (43 : Nat) < hugeWid := by decide
  obtain ⟨c1, h1, hc1⟩ := scanInt_renderInt min hmin 0 ('-' :: renderInt max) (by omega)
    (by intro c hc; simp at hc; subst hc; decide)
  obtain ⟨c2, h2, -⟩ := scanInt_renderInt max hmax (c1 + 1) [] (by omega)
    (by intro c hc; simp at hc)
  rw [List.append_nil] at h2
  have hfirst : ∀ z : Int, ∃ c cs, renderInt z = c :: cs ∧ isSpace c = false := by
    intro z
    obtain ⟨d, ds, hds⟩ := List.exists_cons_of_ne_nil (renderNat_ne_nil z.natAbs)
    have hd := renderNat_digits z.natAbs d (by rw [hds]; exact List.mem_cons_self _ _)
    by_cases hz : z < 0
    · exact ⟨'-', renderNat z.natAbs, by simp [renderInt, hz], by decide⟩
    · exact ⟨d, ds, by simp [renderInt, hz, hds], hd.2.1⟩
  obtain ⟨a, as, ha, hsa⟩ := hfirst min
  obtain ⟨b, bs, hb, hsb⟩ := hfirst max
  have hrule : (formatRule min max).toList = renderInt min ++ '-' :: renderInt max := rfl
  rw [hrule]
  apply Sscanf_steps _ (renderInt max) min max c1 c2
  · rw [ha]
    exact SkipSpace_of_not_space _ _ _ hsa
  · exact h1
  · omega
  · rw [hb]
    exact SkipSpace_of_not_space _ _ _ hsb
  · exact h2

/-! ## Lemmas on the randomizer -/

theorem ruleValue_ok_of_safe (rule : String) (draw : Nat) (h : ruleSafe rule = true) :
    ∃ v, ruleValue rule draw = .ok v := by
  unfold ruleSafe at h
  unfold ruleValue
  cases hs : Sscanf rule.toList with
  | error e => exact ⟨_, rfl⟩
  | ok p =>
    obtain ⟨min, max⟩ := p
    rw [hs] at h
    have hpos : 0 < wrapInt (wrapInt (max - min) + 1) := by simpa using h
    have hn : ¬ wrapInt (wrapInt (max - min) + 1) ≤ 0 := not_le.2 hpos
    simp only [randIntn, if_neg hn]
    exact ⟨_, rfl⟩

theorem ruleValue_error_of_unsafe (rule : String) (draw : Nat) (h : ruleSafe rule = false) :
    ruleValue rule draw = .error "invalid argument to Intn" := by
  unfold ruleSafe at h
  unfold ruleValue
  cases hs : Sscanf rule.toList with
  | error e => rw [hs] at h; simp at h
  | ok p =>
    obtain ⟨min, max⟩ := p
    rw [hs] at h
    have hn : wrapInt (wrapInt (max - min) + 1) ≤ 0 := by simpa using h
    simp only [randIntn, if_pos hn]

theorem get_copyParams (es : List (String × GoValue)) (m : GoMap GoValue) (k : String)
    (hn : (es.map Prod.fst).Nodup) :
    (copyParams es m).get k = (es.lookup k).or (m.get k) := by
  induction es generalizing m with
  | nil => simp [copyParams, List.lookup]
  | cons e es ih =>
    obtain ⟨k0, v0⟩ := e
    simp only [List.map_cons, List.nodup_cons] at hn
    rw [copyParams, ih _ hn.2]
    by_cases hk : k = k0
    · subst hk
      rw [lookup_eq_none_of_not_mem es k hn.1, GoMap.get_set_self]
      simp [List.lookup]
    · have h' : (k == k0) = false := by simpa using hk
      rw [GoMap.get_set_ne _ _ _ _ hk]
      simp [List.lookup, h']

theorem applyRules_ok (draw : String → Nat) (es : List (String × String)) (m : GoMap GoValue)
    (hs : ∀ e ∈ es, ruleSafe e.2 = true) (hn : (es.map Prod.fst).Nodup) :
    ∃ params, applyRules draw es m = .ok params ∧
      ∀ k, (∀ rule, es.lookup k = some rule →
              ∃ v, ruleValue rule (draw k) = .ok v ∧ params.get k = some v) ∧
           (es.lookup k = none → params.get k = m.get k) := by
  induction es generalizing m with
  | nil =>
    refine ⟨m, rfl, fun k => ⟨?_, fun _ => rfl⟩⟩
    intro rule h
    simp [List.lookup] at h
  | cons e es ih =>
    obtain ⟨k0, rule0⟩ := e
    simp only [List.map_cons, List.nodup_cons] at hn
    obtain ⟨v0, hv0⟩ := ruleValue_ok_of_safe rule0 (draw k0) (hs _ (List.mem_cons_self _ _))
    obtain ⟨params, hp, hget⟩ :=
      ih (m.set k0 v0) (fun e he => hs e (List.mem_cons_of_mem _ he)) hn.2
    refine ⟨params, ?_, ?_⟩
    · simp only [applyRules, hv0, hp]
    · intro k
      by_cases hk : k = k0
      · subst hk
        have hnone := lookup_eq_none_of_not_mem es k hn.1
        refine ⟨?_, ?_⟩
        · intro rule h
          simp [List.lookup] at h
          subst h
          exact ⟨v0, hv0, by rw [(hget k).2 hnone, GoMap.get_set_self]⟩
        · intro h
          simp [List.lookup] at h
      · have h' : (k == k0) = false := by simpa using hk
        refine ⟨?_, ?_⟩
        · intro rule h
          simp only [List.lookup, h'] at h
          exact (hget k).1 rule h
        · intro h
          simp only [List.lookup, h'] at h
          rw [(hget k).2 h, GoMap.get_set_ne _ _ _ _ hk]

theorem applyRules_error (draw : String → Nat) (es : List (String × String))
    (m : GoMap GoValue) (hs : ∃ e ∈ es, ruleSafe e.2 = false) :
    applyRules draw es m = .error "invalid argument to Intn" := by
  induction es generalizing m with
  | nil => simp at hs
  | cons e es ih =>
    obtain ⟨k0, rule0⟩ := e
    by_cases h0 : ruleSafe rule0 = true
    · obtain ⟨v0, hv0⟩ := ruleValue_ok_of_safe rule0 (draw k0) h0
      have : ∃ e ∈ es, ruleSafe e.2 = false := by
        obtain ⟨e, he, hf⟩ := hs
        rcases List.mem_cons.1 he with he | he
        · subst he
          simp [h0] at hf
        · exact ⟨e, he, hf⟩
      simp only [applyRules, hv0, ih _ this]
    · have h0' : ruleSafe rule0 = false := by simpa using h0
      simp only [applyRules, ruleValue_error_of_unsafe rule0 (draw k0) h0']

/-- With safe rules the parameter set is built, and it is the static parameters overlaid with
the rule values. -/
theorem buildParams_ok (P : GoMap GoValue) (R : GoMap String) (draw : String → Nat)
    (hs : rulesSafe R = true) :
    ∃ params, buildParams P R draw = .ok params ∧
      ∀ k, (∀ rule, R.get k = some rule →
              ∃ v, ruleValue rule (draw k) = .ok v ∧ params.get k = some v) ∧
           (R.get k = none → params.get k = P.get k) := by
  have hs' : ∀ e ∈ R.entries, ruleSafe e.2 = true := by
    simpa [rulesSafe, List.all_eq_true] using hs
  obtain ⟨params, hp, hget⟩ :=
    applyRules_ok draw R.entries (copyParams P.entries GoMap.empty) hs' R.nodup
  refine ⟨params, hp, fun k => ⟨(hget k).1, fun h => ?_⟩⟩
  rw [(hget k).2 h, get_copyParams _ _ _ P.nodup, GoMap.get_empty]
  simp [GoMap.get]

theorem buildParams_error (P : GoMap GoValue) (R : GoMap String) (draw : String → Nat)
    (hs : rulesSafe R = false) :
    buildParams P R draw = .error "invalid argument to Intn" := by
  apply applyRules_error
  have : ¬ ∀ e ∈ R.entries, ruleSafe e.2 = true := by
    intro h
    have : rulesSafe R = true := by simpa [rulesSafe, List.all_eq_true] using h
    rw [hs] at this
    cases this
  push_neg at this
  obtain ⟨e, he, hf⟩ := this
  exact ⟨e, he, by simpa using hf⟩

/-! ## Lemmas on the run -/

theorem requestCycle_ok (cfg : ConcurrentRequestConfig) (env : Env) (t i : Nat)
    (hs : rulesSafe cfg.RandomParam = true) :
    ∃ r, requestCycle cfg env t i = .ok r ∧ r.cell = (t, i) := by
  obtain ⟨params, hp, -⟩ := buildParams_ok cfg.Params cfg.RandomParam (env.randDraw t i) hs
  unfold requestCycle
  rw [hp]
  dsimp only
  cases env.newRequest cfg.Method cfg.URL with
  | some err => exact ⟨_, rfl, rfl⟩
  | none =>
    dsimp only
    cases env.roundTrip t i (buildRequest cfg env params) with
    | ok p => exact ⟨_, rfl, rfl⟩
    | error err => exact ⟨_, rfl, rfl⟩

theorem requestCycle_error (cfg : ConcurrentRequestConfig) (env : Env) (t i : Nat)
    (hs : rulesSafe cfg.RandomParam = false) :
    requestCycle cfg env t i = .error "invalid argument to Intn" := by
  unfold requestCycle
  rw [buildParams_error cfg.Params cfg.RandomParam (env.randDraw t i) hs]

theorem threadLoop_ok (cfg : ConcurrentRequestConfig) (env : Env) (t : Nat) (is : List Nat)
    (hs : rulesSafe cfg.RandomParam = true) :
    ∃ q, threadLoop cfg env t is = .ok q ∧ q.map RequestResult.cell = is.map (Prod.mk t) := by
  induction is with
  | nil => exact ⟨[], rfl, rfl⟩
  | cons i is ih =>
    obtain ⟨r, hr, hc⟩ := requestCycle_ok cfg env t i hs
    obtain ⟨q, hq, hm⟩ := ih
    refine ⟨r :: q, ?_, ?_⟩
    · simp only [threadLoop, hr, hq]
    · simp only [List.map_cons, hc, hm]

theorem spawnThreads_ok (cfg : ConcurrentRequestConfig) (env : Env) (is ts : List Nat)
    (hs : rulesSafe cfg.RandomParam = true) :
    ∃ qs, spawnThreads cfg env is ts = .ok qs ∧
      qs.map (List.map RequestResult.cell) = ts.map (fun t => is.map (Prod.mk t)) := by
  induction ts with
  | nil => exact ⟨[], rfl, rfl⟩
  | cons t ts ih =>
    obtain ⟨q, hq, hc⟩ := threadLoop_ok cfg env t is hs
    obtain ⟨qs, hqs, hm⟩ := ih
    refine ⟨q :: qs, ?_, ?_⟩
    · simp only [spawnThreads, hq, hqs]
    · simp only [List.map_cons, hc, hm]

theorem takeFrom_perm {α : Type} (n : Nat) (qs qs' : List (List α)) (x : α)
    (h : takeFrom n qs = some (x, qs')) : (x :: qs'.flatten).Perm qs.flatten := by
  induction qs generalizing n qs' with
  | nil => simp [takeFrom] at h
  | cons q qs ih =>
    cases n with
    | zero =>
      cases q with
      | nil => simp [takeFrom] at h
      | cons y q =>
        simp only [takeFrom, Option.some.injEq, Prod.mk.injEq] at h
        obtain ⟨rfl, rfl⟩ := h
        simp
    | succ n =>
      simp only [takeFrom] at h
      cases hq : takeFrom n qs with
      | none => rw [hq] at h; cases h
      | some p =>
        obtain ⟨y, qs1⟩ := p
        rw [hq] at h
        simp only [Option.some.injEq, Prod.mk.injEq] at h
        obtain ⟨rfl, rfl⟩ := h
        have := ih n qs1 hq
        simp only [List.flatten_cons]
        exact (List.perm_middle.symm.trans (List.Perm.append_left q this)).symm.symm

/-- Whatever the schedule, `results` holds the records of all goroutines, each once. -/
theorem collect_perm {α : Type} (sched : List Nat) (qs : List (List α)) :
    (collect sched qs).Perm qs.flatten := by
  induction sched generalizing qs with
  | nil => exact List.Perm.refl _
  | cons s sched ih =>
    cases h : takeFrom s qs with
    | none => simp only [collect, h]; exact ih qs
    | some p =>
      obtain ⟨x, qs'⟩ := p
      simp only [collect, h]
      exact ((ih qs').cons x).trans (takeFrom_perm s qs qs' x h)

theorem normalize_Threads (cfg : ConcurrentRequestConfig) :
    (normalize cfg).Threads = if 1 ≤ cfg.Threads then cfg.Threads else 1 := by
  unfold normalize
  by_cases hm : cfg.Method = "" <;> by_cases ht : cfg.Threads < 1 <;>
    by_cases hi : cfg.Iterations < 1 <;> simp [hm, ht, hi] <;> omega

theorem normalize_Iterations (cfg : ConcurrentRequestConfig) :
    (normalize cfg).Iterations = if 1 ≤ cfg.Iterations then cfg.Iterations else 1 := by
  unfold normalize
  by_cases hm : cfg.Method = "" <;> by_cases ht : cfg.Threads < 1 <;>
    by_cases hi : cfg.Iterations < 1 <;> simp [hm, ht, hi] <;> omega

theorem normalize_RandomParam (cfg : ConcurrentRequestConfig) :
    (normalize cfg).RandomParam = cfg.RandomParam := by
  unfold normalize
  by_cases hm : cfg.Method = "" <;> by_cases ht : cfg.Threads < 1 <;>
    by_cases hi : cfg.Iterations < 1 <;> simp [hm, ht, hi]

theorem normalize_URL (cfg : ConcurrentRequestConfig) : (normalize cfg).URL = cfg.URL := by
  unfold normalize
  by_cases hm : cfg.Method = "" <;> by_cases ht : cfg.Threads < 1 <;>
    by_cases hi : cfg.Iterations < 1 <;> simp [hm, ht, hi]

/-- With safe rules the handler returns a text result; its responses are, up to order, the
records of the whole grid. -/
theorem runConfig_ok (env : Env) (sched : List Nat) (cfg : ConcurrentRequestConfig)
    (hs : rulesSafe cfg.RandomParam = true) :
    ∃ rep, runConfig env sched cfg = .ok (.text rep) ∧
      (rep.success_count, rep.failure_count) = countResults rep.responses ∧
      (rep.responses.map RequestResult.cell).Perm
        (List.range' 1 (normalize cfg).Threads.toNat ×ˢ
          List.range' 1 (normalize cfg).Iterations.toNat) := by
  have hs' : rulesSafe (normalize cfg).RandomParam = true := by
    rw [normalize_RandomParam]; exact hs
  obtain ⟨qs, hqs, hm⟩ := spawnThreads_ok (normalize cfg) env
    (List.range' 1 (normalize cfg).Iterations.toNat)
    (List.range' 1 (normalize cfg).Threads.toNat) hs'
  refine ⟨⟨(countResults (collect sched qs)).1, (countResults (collect sched qs)).2,
    collect sched qs⟩, ?_, rfl, ?_⟩
  · simp only [runConfig, hqs]
  · have h1 := (collect_perm sched qs).map RequestResult.cell
    refine h1.trans ?_
    rw [List.map_flatten, hm]
    exact List.Perm.refl _

theorem normalize_Threads_pos (cfg : ConcurrentRequestConfig) :
    1 ≤ (normalize cfg).Threads := by
  rw [normalize_Threads]; split <;> omega

theorem normalize_Iterations_pos (cfg : ConcurrentRequestConfig) :
    1 ≤ (normalize cfg).Iterations := by
  rw [normalize_Iterations]; split <;> omega

theorem count_cell_product (a b : Int) (ha : 1 ≤ a) (hb : 1 ≤ b) (t i : Nat) :
    @List.count (Nat × Nat) instBEqOfDecidableEq (t, i)
        (List.range' 1 a.toNat ×ˢ List.range' 1 b.toNat) =
      if 1 ≤ (t : Int) ∧ (t : Int) ≤ a ∧ 1 ≤ (i : Int) ∧ (i : Int) ≤ b then 1 else 0 := by
  have hnd : ((List.range' 1 a.toNat ×ˢ List.range' 1 b.toNat)).Nodup :=
    List.Nodup.product (List.nodup_range' 1 a.toNat) (List.nodup_range' 1 b.toNat)
  rw [List.count_eq_of_nodup hnd]
  have ha' : ((a.toNat : Nat) : Int) = a := Int.toNat_of_nonneg (by omega)
  have hb' : ((b.toNat : Nat) : Int) = b := Int.toNat_of_nonneg (by omega)
  have hiff : (t, i) ∈ (List.range' 1 a.toNat ×ˢ List.range' 1 b.toNat) ↔
      (1 ≤ (t : Int) ∧ (t : Int) ≤ a ∧ 1 ≤ (i : Int) ∧ (i : Int) ≤ b) := by
    rw [List.mem_product, List.mem_range'_1, List.mem_range'_1]
    constructor
    · rintro ⟨⟨h1, h2⟩, h3, h4⟩
      refine ⟨?_, ?_, ?_, ?_⟩ <;> omega
    · rintro ⟨h1, h2, h3, h4⟩
      refine ⟨⟨?_, ?_⟩, ?_, ?_⟩ <;> omega
  by_cases h : (t, i) ∈ (List.range' 1 a.toNat ×ˢ List.range' 1 b.toNat)
  · rw [if_pos h, if_pos (hiff.1 h)]
  · rw [if_neg h, if_neg (fun h' => h (hiff.2 h'))]

theorem spawnThreads_error (cfg : ConcurrentRequestConfig) (env : Env) (n m : Nat)
    (hn : 1 ≤ n) (hm : 1 ≤ m) (hs : rulesSafe cfg.RandomParam = false) :
    spawnThreads cfg env (List.range' 1 m) (List.range' 1 n) =
      .error "invalid argument to Intn" := by
  obtain ⟨n', rfl⟩ : ∃ n', n = n' + 1 := ⟨n - 1, by omega⟩
  obtain ⟨m', rfl⟩ : ∃ m', m = m' + 1 := ⟨m - 1, by omega⟩
  simp only [List.range'_succ, spawnThreads, threadLoop, requestCycle_error cfg env _ _ hs]

/-- With an unsafe rule the first request cycle of the first goroutine panics. -/
theorem runConfig_error (env : Env) (sched : List Nat) (cfg : ConcurrentRequestConfig)
    (hs : rulesSafe cfg.RandomParam = false) :
    runConfig env sched cfg = .error "invalid argument to Intn" := by
  have hs' : rulesSafe (normalize cfg).RandomParam = false := by
    rw [normalize_RandomParam]; exact hs
  have ht := normalize_Threads_pos cfg
  have hi := normalize_Iterations_pos cfg
  have h := spawnThreads_error (normalize cfg) env (normalize cfg).Threads.toNat
    (normalize cfg).Iterations.toNat (by omega) (by omega) hs'
  simp only [runConfig, h]

theorem collect_empty_queue {α : Type} (sched : List Nat) :
    collect sched ([[]] : List (List α)) = [] := by
  induction sched with
  | nil => rfl
  | cons s sched ih =>
    cases s with
    | zero => simpa only [collect, takeFrom] using ih
    | succ n => simpa only [collect, takeFrom] using ih

theorem collect_singleton {α : Type} (sched : List Nat) (x : α) :
    collect sched [[x]] = [x] := by
  induction sched with
  | nil => rfl
  | cons s sched ih =>
    cases s with
    | zero => simp only [collect, takeFrom, collect_empty_queue]
    | succ n => simpa only [collect, takeFrom] using ih

theorem threadLoopAppended_of_ok (cfg : ConcurrentRequestConfig) (env : Env) (t : Nat)
    (is : List Nat) (q : List RequestResult) (h : threadLoop cfg env t is = .ok q) :
    threadLoopAppended cfg env t is = q := by
  induction is generalizing q with
  | nil =>
    simp only [threadLoop, Except.ok.injEq] at h
    rw [← h]
    rfl
  | cons i is ih =>
    unfold threadLoop at h
    cases hr : requestCycle cfg env t i with
    | error e => rw [hr] at h; cases h
    | ok r =>
      rw [hr] at h
      dsimp only at h
      cases hq : threadLoop cfg env t is with
      | error e => rw [hq] at h; cases h
      | ok rs =>
        rw [hq] at h
        simp only [Except.ok.injEq] at h
        rw [← h]
        simp only [threadLoopAppended, hr, ih rs hq]

theorem threadLoopAppended_of_panic (cfg : ConcurrentRequestConfig) (env : Env) (t : Nat)
    (is : List Nat) (hs : rulesSafe cfg.RandomParam = false) :
    threadLoopAppended cfg env t is = [] := by
  cases is with
  | nil => rfl
  | cons i is => simp only [threadLoopAppended, requestCycle_error cfg env t i hs]

theorem spawnThreads_appended (cfg : ConcurrentRequestConfig) (env : Env) (is ts : List Nat)
    (qs : List (List RequestResult)) (h : spawnThreads cfg env is ts = .ok qs) :
    ts.map (fun t => threadLoopAppended cfg env t is) = qs := by
  induction ts generalizing qs with
  | nil =>
    simp only [spawnThreads, Except.ok.injEq] at h
    rw [← h]
    rfl
  | cons t ts ih =>
    unfold spawnThreads at h
    cases hq : threadLoop cfg env t is with
    | error e => rw [hq] at h; cases h
    | ok q =>
      rw [hq] at h
      dsimp only at h
      cases hqs : spawnThreads cfg env is ts with
      | error e => rw [hqs] at h; cases h
      | ok qs1 =>
        rw [hqs] at h
        simp only [Except.ok.injEq] at h
        rw [← h]
        simp only [List.map_cons, threadLoopAppended_of_ok cfg env t is q hq, ih qs1 hqs]

/-- When no goroutine panics, the report of `reportBeforeExit` is the report the handler
returns. -/
theorem runConfig_eq_reportBeforeExit (env : Env) (sched : List Nat)
    (cfg : ConcurrentRequestConfig) (hs : rulesSafe cfg.RandomParam = true) :
    runConfig env sched cfg = .ok (.text (reportBeforeExit env sched cfg)) := by
  have hs' : rulesSafe (normalize cfg).RandomParam = true := by
    rw [normalize_RandomParam]; exact hs
  obtain ⟨qs, hqs, -⟩ := spawnThreads_ok (normalize cfg) env
    (List.range' 1 (normalize cfg).Iterations.toNat)
    (List.range' 1 (normalize cfg).Threads.toNat) hs'
  simp only [runConfig, reportBeforeExit, hqs, spawnThreads_appended _ _ _ _ qs hqs]

/-- With an unsafe rule every goroutine panics in its first cycle, before it has appended a
record: the report the handler can still return is empty. -/
theorem reportBeforeExit_of_panic (env : Env) (sched : List Nat) (cfg : ConcurrentRequestConfig)
    (hs : rulesSafe cfg.RandomParam = false) :
    reportBeforeExit env sched cfg =
      { success_count := 0, failure_count := 0, responses := [] } := by
  have hs' : rulesSafe (normalize cfg).RandomParam = false := by
    rw [normalize_RandomParam]; exact hs
  have hq : ∀ ts : List Nat,
      ((ts.map (fun t => threadLoopAppended (normalize cfg) env t
        (List.range' 1 (normalize cfg).Iterations.toNat))).flatten) = [] := by
    intro ts
    induction ts with
    | nil => rfl
    | cons t ts ih =>
      simp only [List.map_cons, List.flatten_cons, ih,
        threadLoopAppended_of_panic (normalize cfg) env t _ hs', List.append_nil]
  have hc : collect sched ((List.range' 1 (normalize cfg).Threads.toNat).map
      (fun t => threadLoopAppended (normalize cfg) env t
        (List.range' 1 (normalize cfg).Iterations.toNat))) = [] := by
    have h := collect_perm sched ((List.range' 1 (normalize cfg).Threads.toNat).map
      (fun t => threadLoopAppended (normalize cfg) env t
        (List.range' 1 (normalize cfg).Iterations.toNat)))
    rw [hq] at h
    exact h.eq_nil
  simp only [reportBeforeExit, hc]
  rfl

/-! ## The grid of outcomes -/

theorem handler_of_decode (env : Env) (sched : List Nat) (input : GoMap JSON)
    (cfg : ConcurrentRequestConfig) (hdec : decodeConfig input = .ok cfg) :
    concurrentRequestHandler env sched input = runConfig env sched cfg := by
  simp only [concurrentRequestHandler, hdec]

/-- With arguments that decode and safe rules the handler returns a text result; its
responses are, up to order, the records of the whole grid. -/
theorem handler_ok (env : Env) (sched : List Nat) (input : GoMap JSON)
    (cfg : ConcurrentRequestConfig) (hdec : decodeConfig input = .ok cfg)
    (hs : rulesSafe cfg.RandomParam = true) :
    ∃ rep, concurrentRequestHandler env sched input = .ok (.text rep) ∧
      (rep.success_count, rep.failure_count) = countResults rep.responses ∧
      (rep.responses.map RequestResult.cell).Perm
        (List.range' 1 (normalize cfg).Threads.toNat ×ˢ
          List.range' 1 (normalize cfg).Iterations.toNat) := by
  rw [handler_of_decode env sched input cfg hdec]
  exact runConfig_ok env sched cfg hs

/-- The number of records when no goroutine panics: for every argument object that decodes to
a configuration `cfg` none of whose rules makes the randomizer panic, every behaviour of the
transport and the random source and every schedule, the handler returns a report, and the
number of records in `responses` is T × I, where T is `threads` when that is at least 1 and 1
otherwise, and I is `iterations` when that is at least 1 and 1 otherwise. -/
theorem responses_length_eq_threads_mul_iterations (env : Env) (sched : List Nat)
    (input : GoMap JSON) (cfg : ConcurrentRequestConfig)
    (hdec : decodeConfig input = .ok cfg) (hs : rulesSafe cfg.RandomParam = true) :
    ∃ rep, concurrentRequestHandler env sched input = .ok (.text rep) ∧
      (rep.responses.length : Int) =
        (if 1 ≤ cfg.Threads then cfg.Threads else 1) *
          (if 1 ≤ cfg.Iterations then cfg.Iterations else 1) := by
  obtain ⟨rep, hrun, -, hperm⟩ := handler_ok env sched input cfg hdec hs
  refine ⟨rep, hrun, ?_⟩
  have hlen := hperm.length_eq
  rw [List.length_map, List.length_product, List.length_range', List.length_range'] at hlen
  rw [hlen, ← normalize_Threads, ← normalize_Iterations]
  have ht := normalize_Threads_pos cfg
  have hi := normalize_Iterations_pos cfg
  push_cast
  rw [Int.toNat_of_nonneg (by omega), Int.toNat_of_nonneg (by omega)]

/-- Three threads and two iterations with the rule `id: "1-1000"` give a report with 3 × 2
records. -/
theorem responses_length_eq_threads_mul_iterations_witness :
    decodeConfig (exampleInput 3 2 [("id", .string "1-1000")]) =
      .ok (exampleConfig 3 2 (singleRule "id" "1-1000")) ∧
    rulesSafe (exampleConfig 3 2 (singleRule "id" "1-1000")).RandomParam = true ∧
    ∃ rep, concurrentRequestHandler server200 [2, 0, 1]
        (exampleInput 3 2 [("id", .string "1-1000")]) = .ok (.text rep) ∧
      (rep.responses.length : Int) =
        (if 1 ≤ (exampleConfig 3 2 (singleRule "id" "1-1000")).Threads
          then (exampleConfig 3 2 (singleRule "id" "1-1000")).Threads else 1) *
        (if 1 ≤ (exampleConfig 3 2 (singleRule "id" "1-1000")).Iterations
          then (exampleConfig 3 2 (singleRule "id" "1-1000")).Iterations else 1) :=
  ⟨rfl, by decide, responses_length_eq_threads_mul_iterations server200 [2, 0, 1]
    (exampleInput 3 2 [("id", .string "1-1000")])
    (exampleConfig 3 2 (singleRule "id" "1-1000")) rfl (by decide)⟩

/-- The grid of records when no goroutine panics: for every argument object that decodes to a
configuration none of whose rules makes the randomizer panic, with effective thread count N
and iteration count M, every behaviour of the transport and every schedule, the report holds
exactly one record for each pair (t, i) with 1 ≤ t ≤ N and 1 ≤ i ≤ M and no record for any
other pair. -/
theorem responses_one_record_per_cell (env : Env) (sched : List Nat)
    (input : GoMap JSON) (cfg : ConcurrentRequestConfig)
    (hdec : decodeConfig input = .ok cfg) (hs : rulesSafe cfg.RandomParam = true) :
    ∃ rep, concurrentRequestHandler env sched input = .ok (.text rep) ∧
      ∀ t i : Nat,
        rep.responses.countP (fun r => r.Thread == t && r.Iteration == i) =
          if 1 ≤ (t : Int) ∧ (t : Int) ≤ (if 1 ≤ cfg.Threads then cfg.Threads else 1) ∧
              1 ≤ (i : Int) ∧ (i : Int) ≤ (if 1 ≤ cfg.Iterations then cfg.Iterations else 1)
          then 1 else 0 := by
  obtain ⟨rep, hrun, -, hperm⟩ := handler_ok env sched input cfg hdec hs
  refine ⟨rep, hrun, fun t i => ?_⟩
  have hc : rep.responses.countP (fun r => r.Thread == t && r.Iteration == i) =
      @List.count (Nat × Nat) instBEqOfDecidableEq (t, i)
        (rep.responses.map RequestResult.cell) := by
    unfold List.count
    rw [List.countP_map]
    apply List.countP_congr
    intro r _
    simp only [Function.comp, RequestResult.cell, Bool.and_eq_true, beq_iff_eq, Prod.mk.injEq]
    constructor
    · rintro ⟨h1, h2⟩
      exact decide_eq_true (by rw [h1, h2])
    · intro h
      have h' : (r.Thread, r.Iteration) = (t, i) := of_decide_eq_true h
      exact ⟨congrArg Prod.fst h', congrArg Prod.snd h'⟩
  rw [hc, hperm.count_eq, ← normalize_Threads, ← normalize_Iterations]
  exact count_cell_product _ _ (normalize_Threads_pos cfg) (normalize_Iterations_pos cfg) t i

/-- With three threads and two iterations each of the six pairs of {1,2,3} × {1,2} has one
record, and no other pair has one. -/
theorem responses_one_record_per_cell_witness :
    decodeConfig (exampleInput 3 2 []) = .ok (exampleConfig 3 2 GoMap.empty) ∧
    rulesSafe (exampleConfig 3 2 GoMap.empty).RandomParam = true ∧
    ∃ rep, concurrentRequestHandler server200 [2, 0, 1] (exampleInput 3 2 [])
        = .ok (.text rep) ∧
      ∀ t i : Nat,
        rep.responses.countP (fun r => r.Thread == t && r.Iteration == i) =
          if 1 ≤ (t : Int) ∧ (t : Int) ≤ (if 1 ≤ (exampleConfig 3 2 GoMap.empty).Threads
                then (exampleConfig 3 2 GoMap.empty).Threads else 1) ∧
              1 ≤ (i : Int) ∧ (i : Int) ≤ (if 1 ≤ (exampleConfig 3 2 GoMap.empty).Iterations
                then (exampleConfig 3 2 GoMap.empty).Iterations else 1)
          then 1 else 0 :=
  ⟨rfl, by decide, responses_one_record_per_cell server200 [2, 0, 1] (exampleInput 3 2 [])
    (exampleConfig 3 2 GoMap.empty) rfl (by decide)⟩

/-- C1, the code at the failing input: the arguments with one thread, one iteration and the
rule `id: "10-1"` decode, so the handler accepts them and T × I = 1.  The goroutine panics in
`rand.Intn(-8)` before it has recorded anything: for every transport, random source and
schedule the handler ends in that panic, and the report it can return while the process ends
has 0 records, not 1. -/
theorem reversed_range_report_has_no_records :
    decodeConfig (exampleInput 1 1 [("id", .string "10-1")]) =
      .ok (exampleConfig 1 1 (singleRule "id" "10-1")) ∧
    (if 1 ≤ (exampleConfig 1 1 (singleRule "id" "10-1")).Threads
        then (exampleConfig 1 1 (singleRule "id" "10-1")).Threads else 1) *
      (if 1 ≤ (exampleConfig 1 1 (singleRule "id" "10-1")).Iterations
        then (exampleConfig 1 1 (singleRule "id" "10-1")).Iterations else 1) = 1 ∧
    (∀ (env : Env) (sched : List Nat),
      concurrentRequestHandler env sched (exampleInput 1 1 [("id", .string "10-1")]) =
        .error "invalid argument to Intn") ∧
    (∀ (env : Env) (sched : List Nat),
      (reportBeforeExit env sched (exampleConfig 1 1 (singleRule "id" "10-1"))).responses.length
        = 0) := by
  refine ⟨rfl, by decide, fun env sched => ?_, fun env sched => ?_⟩
  · rw [handler_of_decode env sched (exampleInput 1 1 [("id", .string "10-1")])
      (exampleConfig 1 1 (singleRule "id" "10-1")) rfl]
    exact runConfig_error env sched _ (by decide)
  · rw [reportBeforeExit_of_panic env sched _ (by decide)]
    rfl

/-- C2, the code at the failing input: the arguments with three threads, two iterations and
the rule `id: "10-1"` decode, so the grid is {1,2,3} × {1,2}.  Every goroutine panics in
`rand.Intn(-8)` in its first cycle: for every transport, random source and schedule the
handler ends in that panic, and the report it can return while the process ends holds no
record for any pair (t, i), in particular none for the pair (1, 1) of the grid. -/
theorem reversed_range_grid_has_no_records :
    decodeConfig (exampleInput 3 2 [("id", .string "10-1")]) =
      .ok (exampleConfig 3 2 (singleRule "id" "10-1")) ∧
    (normalize (exampleConfig 3 2 (singleRule "id" "10-1"))).Threads = 3 ∧
    (normalize (exampleConfig 3 2 (singleRule "id" "10-1"))).Iterations = 2 ∧
    (∀ (env : Env) (sched : List Nat),
      concurrentRequestHandler env sched (exampleInput 3 2 [("id", .string "10-1")]) =
        .error "invalid argument to Intn") ∧
    (∀ (env : Env) (sched : List Nat) (t i : Nat),
      (reportBeforeExit env sched (exampleConfig 3 2 (singleRule "id" "10-1"))).responses.countP
        (fun r => r.Thread == t && r.Iteration == i) = 0) ∧
    (∀ (env : Env) (sched : List Nat),
      (reportBeforeExit env sched (exampleConfig 3 2 (singleRule "id" "10-1"))).responses.countP
        (fun r => r.Thread == 1 && r.Iteration == 1) ≠ 1) := by
  have h0 : ∀ (env : Env) (sched : List Nat) (t i : Nat),
      (reportBeforeExit env sched (exampleConfig 3 2 (singleRule "id" "10-1"))).responses.countP
        (fun r => r.Thread == t && r.Iteration == i) = 0 := by
    intro env sched t i
    rw [reportBeforeExit_of_panic env sched _ (by decide)]
    rfl
  refine ⟨rfl, by decide, by decide, fun env sched => ?_, h0, fun env sched => ?_⟩
  · rw [handler_of_decode env sched (exampleInput 3 2 [("id", .string "10-1")])
      (exampleConfig 3 2 (singleRule "id" "10-1")) rfl]
    exact runConfig_error env sched _ (by decide)
  · rw [h0 env sched 1 1]
    decide

/-- C3, counterexample: with `threads = 0` and `iterations = 5` the iteration count stays 5 and
the report has 5 records, not 1. -/
theorem coerce_both_counts_counterexample :
    decodeConfig (exampleInput 0 5 []) = .ok (exampleConfig 0 5 GoMap.empty) ∧
    ((exampleConfig 0 5 GoMap.empty).Threads ≤ 0 ∨
      (exampleConfig 0 5 GoMap.empty).Iterations ≤ 0) ∧
    (normalize (exampleConfig 0 5 GoMap.empty)).Iterations = 5 ∧
    ∃ rep, concurrentRequestHandler server200 [] (exampleInput 0 5 []) = .ok (.text rep) ∧
      rep.responses.length = 5 :=
  ⟨rfl, Or.inl (by decide), by decide, _, rfl, by decide⟩

/-- C3, amended: when `threads ≤ 0` or `iterations ≤ 0`, each count below 1 becomes 1 and a
positive count is kept, so the report holds max(1, threads) × max(1, iterations) records; it
holds exactly one record when both counts are below 1. -/
theorem nonpositive_counts_floor_independently (env : Env) (sched : List Nat)
    (input : GoMap JSON) (cfg : ConcurrentRequestConfig)
    (hdec : decodeConfig input = .ok cfg) (hs : rulesSafe cfg.RandomParam = true)
    (h : cfg.Threads ≤ 0 ∨ cfg.Iterations ≤ 0) :
    ((normalize cfg).Threads = 1 ∨ (normalize cfg).Iterations = 1) ∧
    (normalize cfg).Threads = (if cfg.Threads ≤ 0 then 1 else cfg.Threads) ∧
    (normalize cfg).Iterations = (if cfg.Iterations ≤ 0 then 1 else cfg.Iterations) ∧
    ∃ rep, concurrentRequestHandler env sched input = .ok (.text rep) ∧
      (rep.responses.length : Int) =
        (if cfg.Threads ≤ 0 then 1 else cfg.Threads) *
          (if cfg.Iterations ≤ 0 then 1 else cfg.Iterations) ∧
      (cfg.Threads ≤ 0 → cfg.Iterations ≤ 0 → rep.responses.length = 1) := by
  have hT : (normalize cfg).Threads = (if cfg.Threads ≤ 0 then 1 else cfg.Threads) := by
    rw [normalize_Threads]; split <;> split <;> omega
  have hI : (normalize cfg).Iterations = (if cfg.Iterations ≤ 0 then 1 else cfg.Iterations) := by
    rw [normalize_Iterations]; split <;> split <;> omega
  have hone : (normalize cfg).Threads = 1 ∨ (normalize cfg).Iterations = 1 := by
    rcases h with h | h
    · exact Or.inl (by rw [hT, if_pos h])
    · exact Or.inr (by rw [hI, if_pos h])
  refine ⟨hone, hT, hI, ?_⟩
  obtain ⟨rep, hrun, -, hperm⟩ := handler_ok env sched input cfg hdec hs
  have hlen := hperm.length_eq
  rw [List.length_map, List.length_product, List.length_range', List.length_range'] at hlen
  have ht := normalize_Threads_pos cfg
  have hi := normalize_Iterations_pos cfg
  have hcast : (rep.responses.length : Int) =
      (normalize cfg).Threads * (normalize cfg).Iterations := by
    rw [hlen]
    push_cast
    rw [Int.toNat_of_nonneg (by omega), Int.toNat_of_nonneg (by omega)]
  refine ⟨rep, hrun, ?_, ?_⟩
  · rw [hcast, hT, hI]
  · intro h1 h2
    rw [hT, hI, if_pos h1, if_pos h2] at hcast
    omega

/-- Witness of the amended C3: `threads = 0`, `iterations = 5`. -/
theorem nonpositive_counts_floor_independently_witness :
    decodeConfig (exampleInput 0 5 []) = .ok (exampleConfig 0 5 GoMap.empty) ∧
    rulesSafe (exampleConfig 0 5 GoMap.empty).RandomParam = true ∧
    ((exampleConfig 0 5 GoMap.empty).Threads ≤ 0 ∨
      (exampleConfig 0 5 GoMap.empty).Iterations ≤ 0) ∧
    (normalize (exampleConfig 0 5 GoMap.empty)).Threads = 1 ∧
    (normalize (exampleConfig 0 5 GoMap.empty)).Iterations = 5 :=
  have h := nonpositive_counts_floor_independently server200 [] (exampleInput 0 5 [])
    (exampleConfig 0 5 GoMap.empty) rfl (by decide) (Or.inl (by decide))
  ⟨rfl, by decide, Or.inl (by decide), h.2.1, h.2.2.1⟩

/-- C4, the code at the failing input: with `url = ""` the handler does not return an error
result.  The arguments decode, and for every transport and schedule the handler returns a
text result with a report of one record; against a transport that answers every request with
status 200 that record is the answer to the request that was dispatched. -/
theorem empty_url_is_dispatched :
    decodeConfig emptyUrlInput = .ok emptyUrlConfig ∧
    emptyUrlConfig.URL = "" ∧
    (∀ (env : Env) (sched : List Nat),
      ∃ rep, concurrentRequestHandler env sched emptyUrlInput = .ok (.text rep) ∧
        rep.responses.length = 1 ∧ rep.success_count + rep.failure_count = 1) ∧
    (∀ sched : List Nat, concurrentRequestHandler server200 sched emptyUrlInput =
      .ok (.text { success_count := 1, failure_count := 0,
                   responses := [{ Thread := 1, Iteration := 1, Status := 200,
                                   BodyPreview := [], Error := "" }] })) := by
  have hdec : decodeConfig emptyUrlInput = .ok emptyUrlConfig := rfl
  refine ⟨hdec, rfl, ?_, ?_⟩
  · intro env sched
    obtain ⟨rep, hrun, hcnt, hperm⟩ :=
      handler_ok env sched emptyUrlInput emptyUrlConfig hdec (by decide)
    have hlen : rep.responses.length = 1 := by
      have := hperm.length_eq
      rw [List.length_map] at this
      rw [this]
      decide
    refine ⟨rep, hrun, hlen, ?_⟩
    obtain ⟨r, hr⟩ := List.length_eq_one.1 hlen
    rw [hr] at hcnt
    have h1 := congrArg Prod.fst hcnt
    have h2 := congrArg Prod.snd hcnt
    simp only [countResults, List.foldl] at h1 h2
    rw [h1, h2]
    split <;> rfl
  · intro sched
    have hq : spawnThreads (normalize emptyUrlConfig) server200
        (List.range' 1 (normalize emptyUrlConfig).Iterations.toNat)
        (List.range' 1 (normalize emptyUrlConfig).Threads.toNat) =
        .ok [[{ Thread := 1, Iteration := 1, Status := 200, BodyPreview := [],
                Error := "" }]] := rfl
    rw [handler_of_decode server200 sched emptyUrlInput emptyUrlConfig hdec]
    simp only [runConfig, hq, collect_singleton]
    rfl

/-- C6, the code at the failing input: with the rule `"10-1"` the scan succeeds with min = 10
and max = 1, `rand.Intn` is called with 1 - 10 + 1 = -8 and panics, and the handler ends in
that panic for every transport, random source and schedule. -/
theorem reversed_range_panics :
    Sscanf "10-1".toList = .ok (10, 1) ∧
    wrapInt (wrapInt (1 - 10) + 1) = -8 ∧
    (∀ draw : Nat, ruleValue "10-1" draw = .error "invalid argument to Intn") ∧
    decodeConfig (exampleInput 1 1 [("id", .string "10-1")]) =
      .ok (exampleConfig 1 1 (singleRule "id" "10-1")) ∧
    (∀ (env : Env) (sched : List Nat),
      concurrentRequestHandler env sched (exampleInput 1 1 [("id", .string "10-1")]) =
        .error "invalid argument to Intn") :=
  ⟨rfl, by decide, fun draw => ruleValue_error_of_unsafe "10-1" draw (by decide), rfl,
    fun env sched => by
      rw [handler_of_decode env sched (exampleInput 1 1 [("id", .string "10-1")])
        (exampleConfig 1 1 (singleRule "id" "10-1")) rfl]
      exact runConfig_error env sched _ (by decide)⟩

/-! ## The randomizer -/

/-- C5, the code at the failing input: the rule `"-1-9223372036854775807"` has the form
`<min>-<max>` with min = -1 ≤ max = 2^63 - 1, but max - min + 1 is not representable as an
`int`: the argument of `rand.Intn` wraps to -2^63 + 1 and `rand.Intn` panics.  No value is
generated for the key, whatever the random source delivers, and the handler ends in that panic
for every transport and schedule. -/
theorem wide_range_panics :
    matchesSpecGrammar "-1-9223372036854775807".toList = true ∧
    Sscanf "-1-9223372036854775807".toList = .ok (-1, 9223372036854775807) ∧
    (-1 : Int) ≤ 9223372036854775807 ∧
    wrapInt (wrapInt (9223372036854775807 - (-1)) + 1) = -9223372036854775807 ∧
    (∀ draw : Nat,
      ruleValue "-1-9223372036854775807" draw = .error "invalid argument to Intn") ∧
    (∀ draw : String → Nat,
      buildParams GoMap.empty (singleRule "id" "-1-9223372036854775807") draw =
        .error "invalid argument to Intn") ∧
    decodeConfig (exampleInput 1 1 [("id", .string "-1-9223372036854775807")]) =
      .ok (exampleConfig 1 1 (singleRule "id" "-1-9223372036854775807")) ∧
    (∀ (env : Env) (sched : List Nat),
      concurrentRequestHandler env sched
          (exampleInput 1 1 [("id", .string "-1-9223372036854775807")]) =
        .error "invalid argument to Intn") :=
  ⟨by decide, rfl, by decide, by decide,
    fun draw => ruleValue_error_of_unsafe _ draw (by decide),
    fun draw => buildParams_error _ _ draw (by decide), rfl,
    fun env sched => by
      rw [handler_of_decode env sched
        (exampleInput 1 1 [("id", .string "-1-9223372036854775807")])
        (exampleConfig 1 1 (singleRule "id" "-1-9223372036854775807")) rfl]
      exact runConfig_error env sched _ (by decide)⟩

/-- The value of a range rule whose width is representable: for every rule string that
`Sscanf` reads as `(min, max)` with min ≤ max and max - min < 2^63 - 1, and for every raw draw
of the random source, the parameter set of the cycle is built and holds under the rule key the
integer v = min + r, where r = draw mod (max - min + 1) is the result of `rand.Intn`, so
min ≤ v ≤ max. -/
theorem range_rule_value_in_bounds (P : GoMap GoValue) (R : GoMap String)
    (draw : String → Nat) (k rule : String) (min max : Int)
    (hs : rulesSafe R = true) (hk : R.get k = some rule)
    (hparse : Sscanf rule.toList = .ok (min, max))
    (hle : min ≤ max) (hwidth : max - min < 2 ^ 63 - 1) :
    ∃ params v, buildParams P R draw = .ok params ∧ params.get k = some (.int v) ∧
      v = min + (draw k : Int) % (max - min + 1) ∧ min ≤ v ∧ v ≤ max := by
  obtain ⟨params, hp, hget⟩ := buildParams_ok P R draw hs
  obtain ⟨v, hv, hpk⟩ := (hget k).1 rule hk
  obtain ⟨hmin, hmax⟩ := Sscanf_range _ _ _ hparse
  have hmin' := hmin
  have hmax' := hmax
  unfold inIntRange at hmin' hmax'
  have hpos : (0 : Int) < max - min + 1 := by omega
  have hr0 : 0 ≤ (draw k : Int) % (max - min + 1) := Int.emod_nonneg _ (by omega)
  have hr1 : (draw k : Int) % (max - min + 1) < max - min + 1 := Int.emod_lt_of_pos _ hpos
  have hw1 : wrapInt (max - min) = max - min :=
    wrapInt_of_inIntRange _ ⟨by omega, by omega⟩
  have hw2 : wrapInt (max - min + 1) = max - min + 1 :=
    wrapInt_of_inIntRange _ ⟨by omega, by omega⟩
  have hw3 : wrapInt ((draw k : Int) % (max - min + 1) + min) =
      (draw k : Int) % (max - min + 1) + min :=
    wrapInt_of_inIntRange _ ⟨by omega, by omega⟩
  have hval : ruleValue rule (draw k) =
      .ok (.int (min + (draw k : Int) % (max - min + 1))) := by
    unfold ruleValue
    rw [hparse]
    simp only [hw1, hw2, randIntn, if_neg (not_le.2 hpos), hw3]
    rw [add_comm]
  rw [hval] at hv
  cases hv
  exact ⟨params, _, hp, hpk, rfl, by omega, by omega⟩

/-- The rule `"1-1000"` under the key `id` gives a value in [1, 1000]. -/
theorem range_rule_value_in_bounds_witness :
    rulesSafe (singleRule "id" "1-1000") = true ∧
    (singleRule "id" "1-1000").get "id" = some "1-1000" ∧
    Sscanf "1-1000".toList = .ok (1, 1000) ∧
    ∃ params v, buildParams GoMap.empty (singleRule "id" "1-1000") (fun _ => 12345)
        = .ok params ∧ params.get "id" = some (.int v) ∧
      v = 1 + ((fun _ => 12345 : String → Nat) "id" : Int) % (1000 - 1 + 1) ∧
      1 ≤ v ∧ v ≤ 1000 :=
  ⟨by decide, by decide, rfl,
    range_rule_value_in_bounds GoMap.empty (singleRule "id" "1-1000") (fun _ => 12345)
      "id" "1-1000" 1 1000 (by decide) (by decide) rfl (by decide) (by decide)⟩

/-- C7, counterexample: `"1-100abc"` is outside the grammar `<int>-<int>`, yet `Sscanf` reads
(1, 100) from it and the value under the key is an integer, not the rule string. -/
theorem trailing_text_counterexample :
    matchesSpecGrammar "1-100abc".toList = false ∧
    Sscanf "1-100abc".toList = .ok (1, 100) ∧
    ∃ params, buildParams GoMap.empty (singleRule "id" "1-100abc") (fun _ => 0)
        = .ok params ∧ params.get "id" = some (.int 1) ∧
      params.get "id" ≠ some (.json (.string "1-100abc")) :=
  ⟨by decide, rfl, _, rfl, rfl, fun h => by cases h⟩

/-- C7, amended: for every rule string on which `fmt.Sscanf(rule, "%d-%d", ...)` returns an
error, the parameter value under the rule key is the rule string itself, in every request
cycle (for every static mapping and every draw). -/
theorem unscanned_rule_is_literal (P : GoMap GoValue) (R : GoMap String)
    (draw : String → Nat) (k rule : String) (e : String)
    (hs : rulesSafe R = true) (hk : R.get k = some rule)
    (herr : Sscanf rule.toList = .error e) :
    ∃ params, buildParams P R draw = .ok params ∧
      params.get k = some (.json (.string rule)) := by
  obtain ⟨params, hp, hget⟩ := buildParams_ok P R draw hs
  obtain ⟨v, hv, hpk⟩ := (hget k).1 rule hk
  have hval : ruleValue rule (draw k) = .ok (.json (.string rule)) := by
    unfold ruleValue
    rw [herr]
  rw [hval] at hv
  cases hv
  exact ⟨params, hp, hpk⟩

/-- Witness of the amended C7: the rule `"foo"` yields the string `"foo"`. -/
theorem unscanned_rule_is_literal_witness :
    rulesSafe (singleRule "name" "foo") = true ∧
    (singleRule "name" "foo").get "name" = some "foo" ∧
    Sscanf "foo".toList = .error "expected integer" ∧
    ∃ params, buildParams GoMap.empty (singleRule "name" "foo") (fun _ => 7) = .ok params ∧
      params.get "name" = some (.json (.string "foo")) :=
  ⟨by decide, by decide, rfl,
    unscanned_rule_is_literal GoMap.empty (singleRule "name" "foo") (fun _ => 7)
      "name" "foo" "expected integer" (by decide) (by decide) rfl⟩

/-- C8: for every static mapping P and rule mapping R whose rules let the randomizer run, the
parameter set of a cycle is built; its keys are the keys of P together with the keys of R,
every key of R carries the value derived from its rule (also when the key is in P), and every
key of P that is not in R carries its static value.  P is an argument that is only read. -/
theorem merged_params_keys_and_values (P : GoMap GoValue) (R : GoMap String)
    (draw : String → Nat) (hs : rulesSafe R = true) :
    ∃ params, buildParams P R draw = .ok params ∧
      (∀ k, k ∈ params.keys ↔ k ∈ P.keys ∨ k ∈ R.keys) ∧
      (∀ k rule, R.get k = some rule →
        ∃ v, ruleValue rule (draw k) = .ok v ∧ params.get k = some v) ∧
      (∀ k, k ∉ R.keys → params.get k = P.get k) := by
  obtain ⟨params, hp, hget⟩ := buildParams_ok P R draw hs
  have hnone : ∀ k, k ∉ R.keys → R.get k = none := fun k hk =>
    lookup_eq_none_of_not_mem R.entries k hk
  refine ⟨params, hp, ?_, fun k rule h => (hget k).1 rule h,
    fun k hk => (hget k).2 (hnone k hk)⟩
  intro k
  rw [GoMap.mem_keys_iff, GoMap.mem_keys_iff, GoMap.mem_keys_iff]
  cases hR : R.get k with
  | none =>
    rw [(hget k).2 hR]
    simp
  | some rule =>
    obtain ⟨v, -, hv⟩ := (hget k).1 rule hR
    rw [hv]
    simp

/-- Witness of C8: the rule for `id` overrides the static `id`, the static `page` is kept. -/
theorem merged_params_keys_and_values_witness :
    rulesSafe (singleRule "id" "1-1000") = true ∧
    ∃ params, buildParams exampleParams (singleRule "id" "1-1000") (fun _ => 41) = .ok params ∧
      (∀ k, k ∈ params.keys ↔ k ∈ exampleParams.keys ∨ k ∈ (singleRule "id" "1-1000").keys) ∧
      (∀ k rule, (singleRule "id" "1-1000").get k = some rule →
        ∃ v, ruleValue rule ((fun _ => 41 : String → Nat) k) = .ok v ∧
          params.get k = some v) ∧
      (∀ k, k ∉ (singleRule "id" "1-1000").keys → params.get k = exampleParams.get k) :=
  ⟨by decide, merged_params_keys_and_values exampleParams (singleRule "id" "1-1000")
    (fun _ => 41) (by decide)⟩

/-! ## Aggregation and previews -/

theorem countResults_foldl (rs : List RequestResult) (a b : Nat) :
    rs.foldl (fun acc r => if isSuccess r then (acc.1 + 1, acc.2) else (acc.1, acc.2 + 1))
        (a, b) =
      (a + rs.countP isSuccess, b + rs.countP (fun r => !isSuccess r)) := by
  induction rs generalizing a b with
  | nil => simp
  | cons r rs ih =>
    by_cases h : isSuccess r = true
    · simp only [List.foldl, h, if_true, ih, List.countP_cons, Bool.not_true,
        Bool.false_eq_true, if_false, Prod.mk.injEq]
      omega
    · have h' : isSuccess r = false := by simpa using h
      simp only [List.foldl, h', Bool.false_eq_true, if_false, ih, List.countP_cons,
        Bool.not_false, if_true, Prod.mk.injEq]
      omega

/-- C9: for every outcome list, `success_count` is the number of outcomes with an empty error
and a status in [200, 300), `failure_count` is the number of all other outcomes, and the two
add up to the length of the list; an outcome with status 404 and an empty error is a
failure. -/
theorem countResults_spec (rs : List RequestResult) :
    (countResults rs).1 =
        rs.countP (fun r => decide (r.Error = "" ∧ 200 ≤ r.Status ∧ r.Status < 300)) ∧
    (countResults rs).2 =
        rs.countP (fun r => decide (¬ (r.Error = "" ∧ 200 ≤ r.Status ∧ r.Status < 300))) ∧
    (countResults rs).1 + (countResults rs).2 = rs.length ∧
    countResults [{ Thread := 1, Iteration := 1, Status := 404, BodyPreview := [],
                    Error := "" }] = (0, 1) := by
  have hiff : ∀ r : RequestResult,
      isSuccess r = decide (r.Error = "" ∧ 200 ≤ r.Status ∧ r.Status < 300) := by
    intro r
    unfold isSuccess
    by_cases h1 : r.Error = "" <;> by_cases h2 : 200 ≤ r.Status <;>
      by_cases h3 : r.Status < 300 <;> simp [h1, h2, h3]
  have h := countResults_foldl rs 0 0
  have e1 : (countResults rs).1 = rs.countP isSuccess := by
    unfold countResults
    rw [h]
    simp
  have e2 : (countResults rs).2 = rs.countP (fun r => !isSuccess r) := by
    unfold countResults
    rw [h]
    simp
  refine ⟨?_, ?_, ?_, by decide⟩
  · rw [e1]
    exact List.countP_congr (fun r _ => by rw [hiff r])
  · rw [e2]
    exact List.countP_congr (fun r _ => by rw [hiff r]; simp)
  · rw [e1, e2]
    have := List.length_eq_countP_add_countP isSuccess rs
    rw [this]
    congr 1
    exact List.countP_congr (fun r _ => by simp)

theorem bodyPreview_eq_take (body : List UInt8) : bodyPreview body = body.take 100 := by
  unfold bodyPreview
  split
  · rfl
  · rw [List.take_of_length_le (by omega)]

/-- C10: for every request cycle that records an outcome, the preview has at most 100 bytes;
and for every response body b that the cycle receives, the recorded preview is the first 100
bytes of b when b is longer than 100 bytes and b itself otherwise, so it is a prefix of b of
length min(len(b), 100). -/
theorem body_preview_is_prefix_of_at_most_100 (cfg : ConcurrentRequestConfig) (env : Env)
    (t i : Nat) (r : RequestResult) (h : requestCycle cfg env t i = .ok r) :
    r.BodyPreview.length ≤ 100 ∧
    ∀ params status body,
      buildParams cfg.Params cfg.RandomParam (env.randDraw t i) = .ok params →
      env.newRequest cfg.Method cfg.URL = none →
      env.roundTrip t i (buildRequest cfg env params) = .ok (status, body) →
      r.BodyPreview = (if body.length > 100 then body.take 100 else body) ∧
      r.BodyPreview <+: body ∧
      r.BodyPreview.length = min body.length 100 := by
  have hlen : ∀ body : List UInt8, (bodyPreview body).length ≤ 100 := by
    intro body
    rw [bodyPreview_eq_take, List.length_take]
    omega
  constructor
  · unfold requestCycle at h
    split at h
    · cases h
    · split at h
      · cases h
        exact Nat.zero_le _
      · split at h
        · cases h
          exact hlen _
        · cases h
          exact Nat.zero_le _
  · intro params status body hp hn hrt
    unfold requestCycle at h
    rw [hp] at h
    simp only [hn, hrt] at h
    cases h
    refine ⟨rfl, ?_, ?_⟩
    · show bodyPreview body <+: body
      rw [bodyPreview_eq_take]
      exact List.take_prefix _ _
    · show (bodyPreview body).length = min body.length 100
      rw [bodyPreview_eq_take, List.length_take]
      omega

set_option maxRecDepth 8000

/-- Witness of C10: a body of 150 bytes is recorded as its first 100 bytes. -/
theorem body_preview_is_prefix_of_at_most_100_witness :
    requestCycle (exampleConfig 1 1 GoMap.empty) server150 1 1 =
      .ok { Thread := 1, Iteration := 1, Status := 200,
            BodyPreview := List.replicate 100 120, Error := "" } ∧
    (List.replicate 100 (120 : UInt8)).length ≤ 100 :=
  ⟨rfl, (body_preview_is_prefix_of_at_most_100 (exampleConfig 1 1 GoMap.empty) server150 1 1
    { Thread := 1, Iteration := 1, Status := 200, BodyPreview := List.replicate 100 120,
      Error := "" } rfl).1⟩

/-! ## Request cycles: failures, bodies, methods and headers -/

theorem normalize_Method (cfg : ConcurrentRequestConfig) :
    (normalize cfg).Method = if cfg.Method = "" then "GET" else cfg.Method := by
  unfold normalize
  by_cases hm : cfg.Method = "" <;> by_cases ht : cfg.Threads < 1 <;>
    by_cases hi : cfg.Iterations < 1 <;> simp [hm, ht, hi]

theorem normalize_Headers (cfg : ConcurrentRequestConfig) :
    (normalize cfg).Headers = cfg.Headers := by
  unfold normalize
  by_cases hm : cfg.Method = "" <;> by_cases ht : cfg.Threads < 1 <;>
    by_cases hi : cfg.Iterations < 1 <;> simp [hm, ht, hi]

theorem normalize_Params (cfg : ConcurrentRequestConfig) :
    (normalize cfg).Params = cfg.Params := by
  unfold normalize
  by_cases hm : cfg.Method = "" <;> by_cases ht : cfg.Threads < 1 <;>
    by_cases hi : cfg.Iterations < 1 <;> simp [hm, ht, hi]

theorem sendsBody_iff (method : String) :
    sendsBody method = true ↔ method = "POST" ∨ method = "PUT" := by
  simp [sendsBody]

/-- A cycle whose parameters are built and whose request is constructed records the answer of
the transport to the request of `buildRequest`. -/
theorem requestCycle_sent (cfg : ConcurrentRequestConfig) (env : Env) (t i : Nat)
    (params : GoMap GoValue)
    (hp : buildParams cfg.Params cfg.RandomParam (env.randDraw t i) = .ok params)
    (hn : env.newRequest cfg.Method cfg.URL = none) :
    requestCycle cfg env t i =
      .ok (outcomeOf t i (env.roundTrip t i (buildRequest cfg env params))) := by
  unfold requestCycle
  rw [hp]
  simp only [hn]
  cases env.roundTrip t i (buildRequest cfg env params) with
  | ok p => rfl
  | error err => rfl

/-- A cycle whose request cannot be constructed records the error of `http.NewRequest`. -/
theorem requestCycle_not_constructed (cfg : ConcurrentRequestConfig) (env : Env) (t i : Nat)
    (params : GoMap GoValue) (err : GoError)
    (hp : buildParams cfg.Params cfg.RandomParam (env.randDraw t i) = .ok params)
    (hn : env.newRequest cfg.Method cfg.URL = some err) :
    requestCycle cfg env t i =
      .ok { Thread := t, Iteration := i, Status := 0, BodyPreview := [],
            Error := err.description } := by
  unfold requestCycle
  rw [hp]
  simp only [hn]

theorem threadLoop_mem (cfg : ConcurrentRequestConfig) (env : Env) (t : Nat) (is : List Nat)
    (q : List RequestResult) (hq : threadLoop cfg env t is = .ok q) (i : Nat) (hi : i ∈ is)
    (r : RequestResult) (hr : requestCycle cfg env t i = .ok r) : r ∈ q := by
  induction is generalizing q with
  | nil => cases hi
  | cons j is ih =>
    unfold threadLoop at hq
    cases hj : requestCycle cfg env t j with
    | error e => rw [hj] at hq; cases hq
    | ok rj =>
      rw [hj] at hq
      cases hrest : threadLoop cfg env t is with
      | error e => rw [hrest] at hq; cases hq
      | ok rs =>
        rw [hrest] at hq
        cases hq
        rcases List.mem_cons.1 hi with h | h
        · subst h
          rw [hj] at hr
          cases hr
          exact List.mem_cons_self _ _
        · exact List.mem_cons_of_mem _ (ih rs hrest h)

theorem spawnThreads_mem (cfg : ConcurrentRequestConfig) (env : Env) (is ts : List Nat)
    (qs : List (List RequestResult)) (hqs : spawnThreads cfg env is ts = .ok qs)
    (t : Nat) (ht : t ∈ ts) (i : Nat) (hi : i ∈ is)
    (r : RequestResult) (hr : requestCycle cfg env t i = .ok r) : r ∈ qs.flatten := by
  induction ts generalizing qs with
  | nil => cases ht
  | cons u ts ih =>
    unfold spawnThreads at hqs
    cases hu : threadLoop cfg env u is with
    | error e => rw [hu] at hqs; cases hqs
    | ok q =>
      rw [hu] at hqs
      cases hrest : spawnThreads cfg env is ts with
      | error e => rw [hrest] at hqs; cases hqs
      | ok qs' =>
        rw [hrest] at hqs
        cases hqs
        rw [List.flatten_cons, List.mem_append]
        rcases List.mem_cons.1 ht with h | h
        · subst h
          exact Or.inl (threadLoop_mem cfg env t is q hu i hi r hr)
        · exact Or.inr (ih qs' hrest h)

/-- With arguments that decode and safe rules, the goroutines produce their records whatever
the schedule, and the report of the handler is the schedule's merge of them. -/
theorem handler_queues (env : Env) (input : GoMap JSON) (cfg : ConcurrentRequestConfig)
    (hdec : decodeConfig input = .ok cfg) (hs : rulesSafe cfg.RandomParam = true) :
    ∃ qs, spawnThreads (normalize cfg) env (List.range' 1 (normalize cfg).Iterations.toNat)
        (List.range' 1 (normalize cfg).Threads.toNat) = .ok qs ∧
      qs.map (List.map RequestResult.cell) =
        (List.range' 1 (normalize cfg).Threads.toNat).map
          (fun t => (List.range' 1 (normalize cfg).Iterations.toNat).map (Prod.mk t)) ∧
      ∀ sched, concurrentRequestHandler env sched input =
        .ok (.text { success_count := (countResults (collect sched qs)).1,
                     failure_count := (countResults (collect sched qs)).2,
                     responses := collect sched qs }) := by
  have hs' : rulesSafe (normalize cfg).RandomParam = true := by
    rw [normalize_RandomParam]; exact hs
  obtain ⟨qs, hqs, hm⟩ := spawnThreads_ok (normalize cfg) env
    (List.range' 1 (normalize cfg).Iterations.toNat)
    (List.range' 1 (normalize cfg).Threads.toNat) hs'
  refine ⟨qs, hqs, hm, fun sched => ?_⟩
  rw [handler_of_decode env sched input cfg hdec]
  simp only [runConfig, hqs]

/-- C11: in every accepted run, a request cycle (t, i) of the grid whose request construction
fails, or whose HTTP call fails, with the error `err` is recorded with status 0, an empty body
preview and the description of `err` as the error, which is not empty; the aggregator counts
the record as a failure; and the run still records all N × M cycles. -/
theorem failed_cycle_is_recorded_as_failure (env : Env) (sched : List Nat)
    (input : GoMap JSON) (cfg : ConcurrentRequestConfig)
    (hdec : decodeConfig input = .ok cfg) (hs : rulesSafe cfg.RandomParam = true)
    (t i : Nat) (ht : 1 ≤ (t : Int) ∧ (t : Int) ≤ (normalize cfg).Threads)
    (hi : 1 ≤ (i : Int) ∧ (i : Int) ≤ (normalize cfg).Iterations) (err : GoError)
    (hfail : env.newRequest (normalize cfg).Method cfg.URL = some err ∨
      (env.newRequest (normalize cfg).Method cfg.URL = none ∧
        ∃ params, buildParams cfg.Params cfg.RandomParam (env.randDraw t i) = .ok params ∧
          env.roundTrip t i (buildRequest (normalize cfg) env params) = .error err)) :
    ∃ rep, concurrentRequestHandler env sched input = .ok (.text rep) ∧
      ({ Thread := t, Iteration := i, Status := 0, BodyPreview := [],
         Error := err.description } : RequestResult) ∈ rep.responses ∧
      err.description ≠ "" ∧
      isSuccess { Thread := t, Iteration := i, Status := 0, BodyPreview := [],
                  Error := err.description } = false ∧
      1 ≤ rep.failure_count ∧
      (rep.responses.length : Int) = (normalize cfg).Threads * (normalize cfg).Iterations := by
  obtain ⟨qs, hqs, hm, hrun⟩ := handler_queues env input cfg hdec hs
  have hT := normalize_Threads_pos cfg
  have hI := normalize_Iterations_pos cfg
  have htm : t ∈ List.range' 1 (normalize cfg).Threads.toNat := by
    rw [List.mem_range'_1]; omega
  have him : i ∈ List.range' 1 (normalize cfg).Iterations.toNat := by
    rw [List.mem_range'_1]; omega
  obtain ⟨params, hp, -⟩ := buildParams_ok cfg.Params cfg.RandomParam (env.randDraw t i) hs
  have hp' : buildParams (normalize cfg).Params (normalize cfg).RandomParam
      (env.randDraw t i) = .ok params := by
    rw [normalize_Params, normalize_RandomParam]; exact hp
  have hcycle : requestCycle (normalize cfg) env t i =
      .ok { Thread := t, Iteration := i, Status := 0, BodyPreview := [],
            Error := err.description } := by
    rcases hfail with hn | ⟨hn, params', hp2, hrt⟩
    · exact requestCycle_not_constructed (normalize cfg) env t i params err hp'
        (by rw [normalize_URL]; exact hn)
    · have : params' = params := by
        rw [hp] at hp2
        cases hp2
        rfl
      subst this
      rw [requestCycle_sent (normalize cfg) env t i params' hp'
        (by rw [normalize_URL]; exact hn), hrt]
      rfl
  have hmem := spawnThreads_mem (normalize cfg) env _ _ qs hqs t htm i him _ hcycle
  have hmem' : outcomeOf t i (.error err) ∈ collect sched qs :=
    (collect_perm sched qs).mem_iff.2 hmem
  have hnot : isSuccess (outcomeOf t i (.error err)) = false := by
    simp [isSuccess, outcomeOf]
  refine ⟨_, hrun sched, hmem', err.nonempty, hnot, ?_, ?_⟩
  · have h := countResults_foldl (collect sched qs) 0 0
    show 1 ≤ (countResults (collect sched qs)).2
    unfold countResults
    rw [h]
    simp only [Nat.zero_add]
    exact List.countP_pos_iff.2 ⟨_, hmem', by rw [hnot]; rfl⟩
  · show ((collect sched qs).length : Int) = _
    have hlen := (collect_perm sched qs).length_eq
    have hlen2 := congrArg List.length (congrArg List.flatten hm)
    rw [← List.map_flatten, List.length_map] at hlen2
    rw [hlen, hlen2]
    have : ((List.range' 1 (normalize cfg).Threads.toNat).map
        (fun t => (List.range' 1 (normalize cfg).Iterations.toNat).map (Prod.mk t))).flatten
        = (List.range' 1 (normalize cfg).Threads.toNat ×ˢ
            List.range' 1 (normalize cfg).Iterations.toNat) := rfl
    rw [this, List.length_product, List.length_range', List.length_range']
    push_cast
    rw [Int.toNat_of_nonneg (by omega), Int.toNat_of_nonneg (by omega)]

/-- Witness of C11: one thread, one iteration, against a transport that refuses the
connection. -/
theorem failed_cycle_is_recorded_as_failure_witness :
    decodeConfig (exampleInput 1 1 []) = .ok (exampleConfig 1 1 GoMap.empty) ∧
    rulesSafe (exampleConfig 1 1 GoMap.empty).RandomParam = true ∧
    ∃ rep, concurrentRequestHandler refusingServer [] (exampleInput 1 1 []) = .ok (.text rep) ∧
      ({ Thread := 1, Iteration := 1, Status := 0, BodyPreview := [],
         Error := connectionRefused.description } : RequestResult) ∈ rep.responses ∧
      connectionRefused.description ≠ "" ∧
      isSuccess { Thread := 1, Iteration := 1, Status := 0, BodyPreview := [],
                  Error := connectionRefused.description } = false ∧
      1 ≤ rep.failure_count ∧
      (rep.responses.length : Int) =
        (normalize (exampleConfig 1 1 GoMap.empty)).Threads *
          (normalize (exampleConfig 1 1 GoMap.empty)).Iterations :=
  ⟨rfl, by decide,
    failed_cycle_is_recorded_as_failure refusingServer [] (exampleInput 1 1 [])
      (exampleConfig 1 1 GoMap.empty) rfl (by decide) 1 1 (by decide) (by decide)
      connectionRefused (Or.inr ⟨rfl, GoMap.empty, rfl, rfl⟩)⟩

/-- C12: in every request cycle the request goes to the configured URL unchanged, and its body
is the JSON serialization of the cycle's parameter set when the method is POST or PUT and
empty for every other method; the request the transport receives is this one; and for a method
other than POST and PUT the cycle is the same whatever the static parameters and the rules
are. -/
theorem body_only_for_post_and_put (cfg : ConcurrentRequestConfig) (env : Env) (t i : Nat)
    (P : GoMap GoValue) (R : GoMap String)
    (hs : rulesSafe cfg.RandomParam = true) (hR : rulesSafe R = true) :
    (∀ params, (buildRequest cfg env params).URL = cfg.URL ∧
      (buildRequest cfg env params).Body =
        if cfg.Method = "POST" ∨ cfg.Method = "PUT" then env.jsonMarshal params else []) ∧
    (∃ params, buildParams cfg.Params cfg.RandomParam (env.randDraw t i) = .ok params ∧
      (env.newRequest cfg.Method cfg.URL = none →
        requestCycle cfg env t i =
          .ok (outcomeOf t i (env.roundTrip t i (buildRequest cfg env params))))) ∧
    (¬ (cfg.Method = "POST" ∨ cfg.Method = "PUT") →
      (∀ params params', buildRequest cfg env params = buildRequest cfg env params') ∧
      requestCycle { cfg with Params := P, RandomParam := R } env t i =
        requestCycle cfg env t i) := by
  have hbody : ∀ params, (buildRequest cfg env params).Body =
      if cfg.Method = "POST" ∨ cfg.Method = "PUT" then env.jsonMarshal params else [] := by
    intro params
    by_cases h : cfg.Method = "POST" ∨ cfg.Method = "PUT"
    · simp only [buildRequest, (sendsBody_iff _).2 h, if_true, if_pos h]
    · have h' : sendsBody cfg.Method = false := by
        cases hb : sendsBody cfg.Method with
        | false => rfl
        | true => exact absurd ((sendsBody_iff _).1 hb) h
      simp only [buildRequest, h', Bool.false_eq_true, if_false, if_neg h]
  obtain ⟨params, hp, -⟩ := buildParams_ok cfg.Params cfg.RandomParam (env.randDraw t i) hs
  refine ⟨fun params => ⟨rfl, hbody params⟩,
    ⟨params, hp, fun hn => requestCycle_sent cfg env t i params hp hn⟩, ?_⟩
  intro h
  have h' : sendsBody cfg.Method = false := by
    cases hb : sendsBody cfg.Method with
    | false => rfl
    | true => exact absurd ((sendsBody_iff _).1 hb) h
  have hsame : ∀ params params', buildRequest cfg env params = buildRequest cfg env params' := by
    intro params params'
    simp only [buildRequest, h', Bool.false_eq_true, if_false]
  refine ⟨hsame, ?_⟩
  obtain ⟨params2, hp2, -⟩ := buildParams_ok P R (env.randDraw t i) hR
  have hreq : ∀ q, buildRequest { cfg with Params := P, RandomParam := R } env q =
      buildRequest cfg env q := fun q => rfl
  unfold requestCycle
  simp only [hp, hp2, hreq]
  rw [hsame params2 params]

/-- Witness of C12: a GET cycle with the static parameters of `exampleParams` and the rule
`id: "1-1000"` is the cycle without them. -/
theorem body_only_for_post_and_put_witness :
    rulesSafe (methodConfig "GET" GoMap.empty).RandomParam = true ∧
    rulesSafe (singleRule "id" "1-1000") = true ∧
    ¬ ((methodConfig "GET" GoMap.empty).Method = "POST" ∨
        (methodConfig "GET" GoMap.empty).Method = "PUT") ∧
    requestCycle { methodConfig "GET" GoMap.empty with
        Params := exampleParams, RandomParam := singleRule "id" "1-1000" } jsonServer 1 1 =
      requestCycle (methodConfig "GET" GoMap.empty) jsonServer 1 1 :=
  have h := body_only_for_post_and_put (methodConfig "GET" GoMap.empty) jsonServer 1 1
    exampleParams (singleRule "id" "1-1000") (by decide) (by decide)
  ⟨by decide, by decide, by decide, (h.2.2 (by decide)).2⟩

/-- C13, counterexample: the supplied method `"post"` stays `"post"`; the request carries an
empty body and no Content-Type header, where `"POST"` carries the JSON body and the header. -/
theorem lower_case_post_counterexample :
    (normalize (methodConfig "post" GoMap.empty)).Method = "post" ∧
    (buildRequest (normalize (methodConfig "post" GoMap.empty)) jsonServer GoMap.empty).Body
      = [] ∧
    (buildRequest (normalize (methodConfig "post" GoMap.empty)) jsonServer
      GoMap.empty).Header.get "Content-Type" = none ∧
    (buildRequest (normalize (methodConfig "POST" GoMap.empty)) jsonServer GoMap.empty).Body
      = [123, 125] ∧
    (buildRequest (normalize (methodConfig "POST" GoMap.empty)) jsonServer
      GoMap.empty).Header.get "Content-Type" = some "application/json" :=
  ⟨by decide, by decide, by decide, by decide, by decide⟩

/-- C13, amended: the effective method is "GET" when the supplied method is empty and the
supplied method as it is otherwise; the request carries the JSON body and the automatic
Content-Type header exactly when the supplied method is literally "POST" or "PUT", and
otherwise it has an empty body and only the static headers. -/
theorem method_is_used_as_supplied (cfg : ConcurrentRequestConfig) (env : Env)
    (params : GoMap GoValue) :
    (normalize cfg).Method = (if cfg.Method = "" then "GET" else cfg.Method) ∧
    (buildRequest (normalize cfg) env params).Method =
      (if cfg.Method = "" then "GET" else cfg.Method) ∧
    (buildRequest (normalize cfg) env params).Body =
      (if cfg.Method = "POST" ∨ cfg.Method = "PUT" then env.jsonMarshal params else []) ∧
    (buildRequest (normalize cfg) env params).Header =
      (if cfg.Method = "POST" ∨ cfg.Method = "PUT"
        then HeaderSet (setHeaders cfg.Headers.entries GoMap.empty)
          "Content-Type" "application/json"
        else setHeaders cfg.Headers.entries GoMap.empty) := by
  have hm := normalize_Method cfg
  have hiff : sendsBody (normalize cfg).Method = true ↔
      (cfg.Method = "POST" ∨ cfg.Method = "PUT") := by
    rw [sendsBody_iff, hm]
    by_cases h0 : cfg.Method = ""
    · simp [h0]
    · simp [h0]
  refine ⟨hm, hm, ?_, ?_⟩
  · by_cases h : cfg.Method = "POST" ∨ cfg.Method = "PUT"
    · simp only [buildRequest, hiff.2 h, if_true, if_pos h]
    · have h' : sendsBody (normalize cfg).Method = false := by
        cases hb : sendsBody (normalize cfg).Method with
        | false => rfl
        | true => exact absurd (hiff.1 hb) h
      simp only [buildRequest, h', Bool.false_eq_true, if_false, if_neg h]
  · by_cases h : cfg.Method = "POST" ∨ cfg.Method = "PUT"
    · simp only [buildRequest, hiff.2 h, if_true, if_pos h, normalize_Headers]
    · have h' : sendsBody (normalize cfg).Method = false := by
        cases hb : sendsBody (normalize cfg).Method with
        | false => rfl
        | true => exact absurd (hiff.1 hb) h
      simp only [buildRequest, h', Bool.false_eq_true, if_false, if_neg h, normalize_Headers]

/-- C14, counterexample: a POST cycle with the static header `Content-Type: text/plain` sends
`Content-Type: application/json`, not the value of the user. -/
theorem static_content_type_counterexample :
    (methodConfig "POST" textPlainHeaders).Headers.get "Content-Type" = some "text/plain" ∧
    (buildRequest (normalize (methodConfig "POST" textPlainHeaders)) jsonServer
      GoMap.empty).Header.get "Content-Type" = some "application/json" ∧
    (buildRequest (normalize (methodConfig "POST" textPlainHeaders)) jsonServer
      GoMap.empty).Header.get "Content-Type" ≠ some "text/plain" :=
  ⟨by decide, by decide, by decide⟩

/-- C14, amended: in every POST or PUT cycle the static headers are applied first and
Content-Type is then set to application/json in every case, so the request carries
`Content-Type: application/json` also when the static headers have a Content-Type entry, and
every other header is as the static headers left it. -/
theorem content_type_is_always_json (cfg : ConcurrentRequestConfig) (env : Env)
    (params : GoMap GoValue) (h : cfg.Method = "POST" ∨ cfg.Method = "PUT") :
    (buildRequest cfg env params).Header.get "Content-Type" = some "application/json" ∧
    ∀ k, k ≠ "Content-Type" →
      (buildRequest cfg env params).Header.get k =
        (setHeaders cfg.Headers.entries GoMap.empty).get k := by
  have hb := (sendsBody_iff _).2 h
  have hcanon : CanonicalMIMEHeaderKey "Content-Type" = "Content-Type" := by decide
  have hH : (buildRequest cfg env params).Header =
      (setHeaders cfg.Headers.entries GoMap.empty).set "Content-Type" "application/json" := by
    simp only [buildRequest, hb, if_true, HeaderSet, hcanon]
  rw [hH]
  exact ⟨GoMap.get_set_self _ _ _, fun k hk => GoMap.get_set_ne _ _ _ _ hk⟩

/-- Witness of the amended C14: the POST cycle with the static header
`Content-Type: text/plain`. -/
theorem content_type_is_always_json_witness :
    ((methodConfig "POST" textPlainHeaders).Method = "POST" ∨
      (methodConfig "POST" textPlainHeaders).Method = "PUT") ∧
    (buildRequest (methodConfig "POST" textPlainHeaders) jsonServer GoMap.empty).Header.get
      "Content-Type" = some "application/json" :=
  ⟨Or.inl rfl, (content_type_is_always_json (methodConfig "POST" textPlainHeaders) jsonServer
    GoMap.empty (Or.inl rfl)).1⟩

/-! ## Order of the records of one thread -/

theorem takeFrom_spec {α : Type} (n : Nat) (qs qs' : List (List α)) (x : α)
    (h : takeFrom n qs = some (x, qs')) :
    ∃ q, qs[n]? = some (x :: q) ∧ qs' = qs.set n q := by
  induction qs generalizing n qs' with
  | nil => simp [takeFrom] at h
  | cons q0 qs ih =>
    cases n with
    | zero =>
      cases q0 with
      | nil => simp [takeFrom] at h
      | cons y q =>
        simp only [takeFrom, Option.some.injEq, Prod.mk.injEq] at h
        obtain ⟨rfl, rfl⟩ := h
        exact ⟨q, by simp, by simp⟩
    | succ n =>
      simp only [takeFrom] at h
      cases hq : takeFrom n qs with
      | none => rw [hq] at h; cases h
      | some p =>
        obtain ⟨y, qs1⟩ := p
        rw [hq] at h
        simp only [Option.some.injEq, Prod.mk.injEq] at h
        obtain ⟨rfl, rfl⟩ := h
        obtain ⟨q, h1, h2⟩ := ih n qs1 hq
        exact ⟨q, by simpa using h1, by simp [h2]⟩

/-- In a list of queues in which the elements of queue `j` have the key `j + c`, the elements
with key `t` of the concatenation are queue `t - c`. -/
theorem filter_flatten_keyed {α : Type} (f : α → Nat) (qs : List (List α)) (c t : Nat)
    (H : ∀ j q, qs[j]? = some q → ∀ x ∈ q, f x = j + c) :
    qs.flatten.filter (fun x => f x == t) = if c ≤ t then (qs[t - c]?).getD [] else [] := by
  induction qs generalizing c with
  | nil => simp
  | cons q qs ih =>
    have Hq : ∀ x ∈ q, f x = c := fun x hx => by
      have := H 0 q (by simp) x hx
      omega
    have Hqs : ∀ j q', qs[j]? = some q' → ∀ x ∈ q', f x = j + (c + 1) := fun j q' hj x hx => by
      have := H (j + 1) q' (by simpa using hj) x hx
      omega
    rw [List.flatten_cons, List.filter_append, ih (c + 1) Hqs]
    by_cases htc : t = c
    · subst htc
      have h1 : q.filter (fun x => f x == t) = q :=
        List.filter_eq_self.2 (fun x hx => by simp [Hq x hx])
      rw [h1]
      simp
    · have h1 : q.filter (fun x => f x == t) = [] :=
        List.filter_eq_nil_iff.2 (fun x hx => by simp [Hq x hx]; omega)
      rw [h1, List.nil_append]
      by_cases hle : c + 1 ≤ t
      · have hc : c ≤ t := by omega
        rw [if_pos hle, if_pos hc]
        have : t - c = (t - (c + 1)) + 1 := by omega
        rw [this]
        simp
      · have hc : ¬ c ≤ t := by omega
        rw [if_neg hle, if_neg hc]

/-- Whatever the schedule, the records with key `t` in `results` are queue `t - c`, in the
order of the queue. -/
theorem filter_collect_keyed {α : Type} (f : α → Nat) (c t : Nat) (sched : List Nat)
    (qs : List (List α)) (H : ∀ j q, qs[j]? = some q → ∀ x ∈ q, f x = j + c) :
    (collect sched qs).filter (fun x => f x == t) =
      if c ≤ t then (qs[t - c]?).getD [] else [] := by
  induction sched generalizing qs with
  | nil => exact filter_flatten_keyed f qs c t H
  | cons s sched ih =>
    cases h : takeFrom s qs with
    | none =>
      simp only [collect, h]
      exact ih qs H
    | some p =>
      obtain ⟨x, qs'⟩ := p
      obtain ⟨q, hq, hset⟩ := takeFrom_spec s qs qs' x h
      have hslt : s < qs.length := by
        by_contra hge
        rw [List.getElem?_eq_none (by omega)] at hq
        cases hq
      have H' : ∀ j q', qs'[j]? = some q' → ∀ y ∈ q', f y = j + c := by
        intro j q' hj y hy
        rw [hset] at hj
        by_cases hsj : s = j
        · subst hsj
          rw [List.getElem?_set_self hslt] at hj
          have e : q = q' := Option.some.inj hj
          subst e
          exact H s (x :: q) hq y (List.mem_cons_of_mem _ hy)
        · rw [List.getElem?_set_ne hsj] at hj
          exact H j q' hj y hy
      have hx : f x = s + c := H s (x :: q) hq x (List.mem_cons_self _ _)
      simp only [collect, h, List.filter_cons, hx]
      rw [ih qs' H']
      by_cases hst : s + c = t
      · have hc : c ≤ t := by omega
        have hts : t - c = s := by omega
        simp only [hst, beq_self_eq_true, if_true, if_pos hc, hts, hset,
          List.getElem?_set_self hslt, hq, Option.getD_some]
      · have hne : (s + c == t) = false := by simpa using hst
        simp only [hne, Bool.false_eq_true, if_false]
        by_cases hc : c ≤ t
        · have hts : s ≠ t - c := by omega
          simp only [if_pos hc, hset, List.getElem?_set_ne hts]
        · simp only [if_neg hc]

theorem queues_keyed (n : Nat) (is : List Nat) (qs : List (List RequestResult))
    (hm : qs.map (List.map RequestResult.cell) =
      (List.range' 1 n).map (fun t => is.map (Prod.mk t))) :
    qs.length = n ∧
    ∀ j q, qs[j]? = some q → q.map RequestResult.cell = is.map (Prod.mk (j + 1)) := by
  have hlen : qs.length = n := by
    have := congrArg List.length hm
    simpa using this
  refine ⟨hlen, fun j q hj => ?_⟩
  have hjlt : j < n := by
    by_contra hge
    rw [List.getElem?_eq_none (by omega)] at hj
    cases hj
  have h := congrArg (fun l => l[j]?) hm
  simp only [List.getElem?_map, hj, Option.map_some', List.getElem?_range' 1 1 hjlt] at h
  have h' := Option.some.inj h
  have e : 1 + 1 * j = j + 1 := by omega
  rw [e] at h'
  exact h'

/-- C15: for every accepted argument object, every behaviour of the transport and every
schedule of the goroutines, the records of thread t stand in `responses` in the order of their
iterations 1, 2, …, M (and a thread number outside 1..N has no records); with two or more
threads the order between records of different threads depends on the schedule. -/
theorem thread_records_in_iteration_order (env : Env) (sched : List Nat)
    (input : GoMap JSON) (cfg : ConcurrentRequestConfig)
    (hdec : decodeConfig input = .ok cfg) (hs : rulesSafe cfg.RandomParam = true) :
    (∃ rep, concurrentRequestHandler env sched input = .ok (.text rep) ∧
      ∀ t : Nat,
        (rep.responses.filter (fun r => r.Thread == t)).map RequestResult.Iteration =
          if 1 ≤ (t : Int) ∧ (t : Int) ≤ (if 1 ≤ cfg.Threads then cfg.Threads else 1)
          then List.range' 1 (if 1 ≤ cfg.Iterations then cfg.Iterations else 1).toNat
          else []) ∧
    (2 ≤ cfg.Threads →
      ∃ sched1 sched2 rep1 rep2,
        concurrentRequestHandler env sched1 input = .ok (.text rep1) ∧
        concurrentRequestHandler env sched2 input = .ok (.text rep2) ∧
        rep1.responses ≠ rep2.responses) := by
  obtain ⟨qs, -, hm, hrun⟩ := handler_queues env input cfg hdec hs
  obtain ⟨hlen, hkey⟩ := queues_keyed _ _ qs hm
  have hT := normalize_Threads_pos cfg
  have hI := normalize_Iterations_pos cfg
  constructor
  · refine ⟨_, hrun sched, fun t => ?_⟩
    show ((collect sched qs).filter (fun r => r.Thread == t)).map RequestResult.Iteration = _
    have H : ∀ j q, qs[j]? = some q → ∀ x ∈ q, x.Thread = j + 1 := by
      intro j q hj x hx
      have hc := hkey j q hj
      have hmem : x.cell ∈ q.map RequestResult.cell := List.mem_map_of_mem _ hx
      rw [hc, List.mem_map] at hmem
      obtain ⟨i, -, hi⟩ := hmem
      exact (congrArg Prod.fst hi).symm
    rw [filter_collect_keyed RequestResult.Thread 1 t sched qs H,
      ← normalize_Threads, ← normalize_Iterations]
    by_cases ht : 1 ≤ (t : Int) ∧ (t : Int) ≤ (normalize cfg).Threads
    · have h1 : 1 ≤ t := by omega
      have hlt : t - 1 < qs.length := by omega
      rw [if_pos h1, if_pos ht, List.getElem?_eq_getElem hlt, Option.getD_some]
      have hc := hkey (t - 1) qs[t - 1] (List.getElem?_eq_getElem hlt)
      have hmap : (qs[t - 1]).map RequestResult.Iteration =
          ((qs[t - 1]).map RequestResult.cell).map Prod.snd := by
        rw [List.map_map]
        rfl
      rw [hmap, hc, List.map_map]
      simp [Function.comp]
    · rw [if_neg ht]
      by_cases h1 : 1 ≤ t
      · have hge : qs.length ≤ t - 1 := by omega
        rw [if_pos h1, List.getElem?_eq_none hge]
        rfl
      · rw [if_neg h1]
        rfl
  · intro h2
    have hn2 : (normalize cfg).Threads = cfg.Threads := by
      rw [normalize_Threads, if_pos (by omega)]
    obtain ⟨n', hn'⟩ : ∃ n', (normalize cfg).Threads.toNat = n' + 2 :=
      ⟨(normalize cfg).Threads.toNat - 2, by omega⟩
    obtain ⟨m', hm'⟩ : ∃ m', (normalize cfg).Iterations.toNat = m' + 1 :=
      ⟨(normalize cfg).Iterations.toNat - 1, by omega⟩
    rw [hn', hm'] at hm
    simp only [List.range'_succ, List.map_cons] at hm
    match qs, hm, hrun with
    | [], hm, _ => simp at hm
    | [_], hm, _ => simp at hm
    | q0 :: q1 :: rest, hm, hrun =>
      simp only [List.map_cons, List.cons.injEq] at hm
      obtain ⟨h0, h1, -⟩ := hm
      match q0, h0, q1, h1, hrun with
      | [], h0, _, _, _ => simp at h0
      | _ :: _, _, [], h1, _ => simp at h1
      | r0 :: q0', h0, r1 :: q1', h1, hrun =>
        simp only [List.map_cons, List.cons.injEq] at h0 h1
        refine ⟨[], [1], _, _, hrun [], hrun [1], ?_⟩
        show collect [] ((r0 :: q0') :: (r1 :: q1') :: rest) ≠
          collect [1] ((r0 :: q0') :: (r1 :: q1') :: rest)
        simp only [collect, takeFrom, List.flatten_cons, List.cons_append]
        intro heq
        have hr : r0 = r1 := (List.cons.inj heq).1
        have hcell : r0.cell = r1.cell := by rw [hr]
        rw [h0.1, h1.1] at hcell
        exact absurd (congrArg Prod.fst hcell) (by decide)

/-- Witness of C15: three threads and two iterations. -/
theorem thread_records_in_iteration_order_witness :
    decodeConfig (exampleInput 3 2 []) = .ok (exampleConfig 3 2 GoMap.empty) ∧
    rulesSafe (exampleConfig 3 2 GoMap.empty).RandomParam = true ∧
    ∃ rep, concurrentRequestHandler server200 [2, 0, 1] (exampleInput 3 2 []) =
        .ok (.text rep) ∧
      ∀ t : Nat,
        (rep.responses.filter (fun r => r.Thread == t)).map RequestResult.Iteration =
          if 1 ≤ (t : Int) ∧ (t : Int) ≤ (if 1 ≤ (exampleConfig 3 2 GoMap.empty).Threads
              then (exampleConfig 3 2 GoMap.empty).Threads else 1)
          then List.range' 1 (if 1 ≤ (exampleConfig 3 2 GoMap.empty).Iterations
              then (exampleConfig 3 2 GoMap.empty).Iterations else 1).toNat
          else [] :=
  ⟨rfl, by decide, (thread_records_in_iteration_order server200 [2, 0, 1]
    (exampleInput 3 2 []) (exampleConfig 3 2 GoMap.empty) rfl (by decide)).1⟩

/-! ## The declared JSON-string arguments -/

/-- C16, the code at the failing input: the argument names `headers_json`, `params_json` and
`random_param_json` declared in main.go match no field of `ConcurrentRequestConfig`, so the
handler decodes the call as if they were absent and behaves the same with and without them:
the request has no Authorization header and the parameter set is empty.  The configuration
whose fields hold the decoded mappings sends the header and builds the parameters. -/
theorem json_string_arguments_are_ignored :
    findField "headers_json" = none ∧ findField "params_json" = none ∧
    findField "random_param_json" = none ∧
    decodeConfig jsonArgsInput = .ok (methodConfig "POST" GoMap.empty) ∧
    decodeConfig plainInput = .ok (methodConfig "POST" GoMap.empty) ∧
    decodeConfig decodedArgsInput = .ok decodedArgsConfig ∧
    (∀ (env : Env) (sched : List Nat),
      concurrentRequestHandler env sched jsonArgsInput =
        concurrentRequestHandler env sched plainInput) ∧
    (∀ (env : Env) (params : GoMap GoValue),
      (buildRequest (normalize (methodConfig "POST" GoMap.empty)) env params).Header.get
          "Authorization" = none ∧
      (buildRequest (normalize decodedArgsConfig) env params).Header.get
          "Authorization" = some "Bearer xxx") ∧
    (∀ draw : String → Nat,
      buildParams (methodConfig "POST" GoMap.empty).Params
        (methodConfig "POST" GoMap.empty).RandomParam draw = .ok GoMap.empty ∧
      ∃ params v, buildParams decodedArgsConfig.Params decodedArgsConfig.RandomParam draw
          = .ok params ∧
        params.get "a" = some (.json (.string "1")) ∧ params.get "id" = some (.int v)) := by
  have h1 : decodeConfig jsonArgsInput = .ok (methodConfig "POST" GoMap.empty) := rfl
  have h2 : decodeConfig plainInput = .ok (methodConfig "POST" GoMap.empty) := rfl
  refine ⟨by decide, by decide, by decide, h1, h2, rfl, ?_, ?_, ?_⟩
  · intro env sched
    rw [handler_of_decode env sched jsonArgsInput _ h1,
      handler_of_decode env sched plainInput _ h2]
  · intro env params
    exact ⟨rfl, rfl⟩
  · intro draw
    refine ⟨rfl, ?_⟩
    obtain ⟨params, hp, hget⟩ := buildParams_ok decodedArgsConfig.Params
      decodedArgsConfig.RandomParam draw (by decide)
    have hrv : ruleValue "1-1000" (draw "id") =
        .ok (.int (wrapInt ((draw "id" : Int) % wrapInt (wrapInt (1000 - 1) + 1) + 1))) := rfl
    obtain ⟨v, hv, hid⟩ := (hget "id").1 "1-1000" (by decide)
    rw [hrv] at hv
    cases hv
    refine ⟨params, _, hp, ?_, hid⟩
    rw [(hget "a").2 (by decide)]
    rfl

/-! ## `executeQuery` -/

theorem isSpace_ofNat_upper :
    ∀ n < 123, 97 ≤ n → isSpace (Char.ofNat (n - 32)) = false := by decide

theorem isSpace_toUpper (c : Char) : isSpace c.toUpper = isSpace c := by
  unfold Char.toUpper
  by_cases h : c.toNat ≥ 97 ∧ c.toNat ≤ 122
  · have h1 : isSpace (Char.ofNat (c.toNat - 32)) = false :=
      isSpace_ofNat_upper c.toNat (by omega) h.1
    have h2 : isSpace c = false := by
      unfold isSpace
      simp only [Bool.or_eq_false_iff, Bool.and_eq_false_iff, decide_eq_false_iff_not,
        beq_eq_false_iff_ne, ne_eq]
      refine ⟨⟨⟨⟨⟨⟨⟨⟨⟨?_, ?_⟩, ?_⟩, ?_⟩, ?_⟩, ?_⟩, ?_⟩, ?_⟩, ?_⟩, ?_⟩ <;> omega
    simp only [h, and_self, if_true, h1, h2]
  · simp only [h, if_false]

theorem isSpace_unicodeToUpper (table : Char → Char)
    (htable : ∀ c, 127 < c.toNat → isSpace (table c) = isSpace c) (c : Char) :
    isSpace (unicodeToUpper table c) = isSpace c := by
  unfold unicodeToUpper
  by_cases h : c.toNat ≤ 127
  · rw [if_pos h]
    exact isSpace_toUpper c
  · rw [if_neg h]
    exact htable c (by omega)

theorem dropWhile_isSpace_ToUpper (table : Char → Char)
    (htable : ∀ c, 127 < c.toNat → isSpace (table c) = isSpace c) (s : List Char) :
    (ToUpper table s).dropWhile isSpace = ToUpper table (s.dropWhile isSpace) := by
  unfold ToUpper
  rw [List.dropWhile_map]
  have : (isSpace ∘ unicodeToUpper table) = isSpace :=
    funext (fun c => isSpace_unicodeToUpper table htable c)
  rw [this]

/-- Upper-casing and trimming commute, since upper-casing keeps white space white space. -/
theorem TrimSpace_ToUpper (table : Char → Char)
    (htable : ∀ c, 127 < c.toNat → isSpace (table c) = isSpace c) (s : List Char) :
    TrimSpace (ToUpper table s) = ToUpper table (TrimSpace s) := by
  unfold TrimSpace
  rw [dropWhile_isSpace_ToUpper table htable]
  have hrev : ∀ l : List Char, (ToUpper table l).reverse = ToUpper table l.reverse :=
    fun l => by unfold ToUpper; rw [List.map_reverse]
  rw [hrev, dropWhile_isSpace_ToUpper table htable, hrev]

/-- The gate of lines 147-157: `executeQuery` hands a statement to the database exactly for a
query that is a non-empty string and, without its surrounding white space and letter case
apart, begins with the letters SELECT, SHOW or DESCRIBE, and then it hands over one statement.
For every other non-empty query it returns the error result
"只允许执行 SELECT、SHOW 和 DESCRIBE 查询", and for an absent, non-string or empty query the
error result "query 参数是必需的", without a database query in both cases. -/
theorem executeQuery_only_read_queries (env : QueryEnv) (request : GoMap JSON)
    (htable : ∀ c, 127 < c.toNat → isSpace (env.upperTable c) = isSpace c) :
    ((∀ query, request.get "query" ≠ some (.string query)) →
      executeQuery env request = (.error "query 参数是必需的", [])) ∧
    (request.get "query" = some (.string "") →
      executeQuery env request = (.error "query 参数是必需的", [])) ∧
    (∀ query, request.get "query" = some (.string query) → query ≠ "" →
      isReadQuery env.upperTable query = false →
      executeQuery env request = (.error "只允许执行 SELECT、SHOW 和 DESCRIBE 查询", [])) ∧
    (∀ query, request.get "query" = some (.string query) → query ≠ "" →
      isReadQuery env.upperTable query = true →
      ∃ stmt, (executeQuery env request).2 = [stmt]) ∧
    ((executeQuery env request).2 ≠ [] →
      ∃ query, request.get "query" = some (.string query) ∧ query ≠ "" ∧
        isReadQuery env.upperTable query = true) := by
  have hgate : ∀ query : String,
      (!HasPrefix (TrimSpace (ToUpper env.upperTable query.toList)) "SELECT".toList &&
        !HasPrefix (TrimSpace (ToUpper env.upperTable query.toList)) "SHOW".toList &&
        !HasPrefix (TrimSpace (ToUpper env.upperTable query.toList)) "DESCRIBE".toList) =
      !isReadQuery env.upperTable query := by
    intro query
    unfold isReadQuery
    rw [TrimSpace_ToUpper env.upperTable htable]
    simp only [Bool.not_or]
  have hstr : ∀ query, request.get "query" = some (.string query) → query ≠ "" →
      executeQuery env request =
        if isReadQuery env.upperTable query = true then
          (runStatement env (withLimit env query (limitArgument env request)),
            [withLimit env query (limitArgument env request)])
        else (.error "只允许执行 SELECT、SHOW 和 DESCRIBE 查询", []) := by
    intro query hq hne
    unfold executeQuery
    rw [hq]
    simp only [if_neg hne, hgate query]
    cases isReadQuery env.upperTable query <;> simp
  have hempty : request.get "query" = some (.string "") →
      executeQuery env request = (.error "query 参数是必需的", []) := by
    intro hq
    unfold executeQuery
    rw [hq]
    simp
  have hnostr : (∀ query, request.get "query" ≠ some (.string query)) →
      executeQuery env request = (.error "query 参数是必需的", []) := by
    intro hq
    unfold executeQuery
    split
    · rename_i query heq
      exact absurd heq (hq query)
    · rfl
  refine ⟨hnostr, hempty, ?_, ?_, ?_⟩
  · intro query hq hne hread
    rw [hstr query hq hne, hread]
    simp
  · intro query hq hne hread
    rw [hstr query hq hne, hread]
    exact ⟨_, rfl⟩
  · intro htrace
    by_cases hex : ∃ query, request.get "query" = some (.string query)
    · obtain ⟨query, hq⟩ := hex
      by_cases hne : query = ""
      · subst hne
        rw [hempty hq] at htrace
        exact absurd rfl htrace
      · refine ⟨query, hq, hne, ?_⟩
        cases hread : isReadQuery env.upperTable query with
        | true => rfl
        | false =>
          rw [hstr query hq hne, hread] at htrace
          exact absurd rfl htrace
    · rw [hnostr (fun query hq => hex ⟨query, hq⟩)] at htrace
      exact absurd rfl htrace

/-- The query `DROP TABLE users` is refused without a database query. -/
theorem executeQuery_only_read_queries_witness :
    (∀ c : Char, 127 < c.toNat → isSpace (emptyDatabase.upperTable c) = isSpace c) ∧
    executeQuery emptyDatabase dropRequest =
      (.error "只允许执行 SELECT、SHOW 和 DESCRIBE 查询", []) :=
  ⟨fun _ _ => rfl,
    (executeQuery_only_read_queries emptyDatabase dropRequest (fun _ _ => rfl)).2.2.1
      "DROP TABLE users" rfl (by decide) (by decide)⟩

theorem renderInt_five : String.mk (renderInt 5) = "5" := by
  have h : renderInt 5 = [Nat.digitChar 5] := by
    norm_num [renderInt, renderNat]
  rw [h]
  rfl

theorem renderInt_hundred : String.mk (renderInt 100) = "100" := by
  have h : renderInt 100 = [Nat.digitChar 1, Nat.digitChar 0, Nat.digitChar 0] := by
    norm_num [renderInt, renderNat]
  rw [h]
  rfl

/-- C17, the code at the failing input: `SELECTED; DROP TABLE t` is not a SELECT, SHOW or
DESCRIBE query (its first word is SELECTED), yet it passes the test of line 155, which compares
letters only, and the statement `SELECTED; DROP TABLE t LIMIT 100` is handed to the database,
whatever the database is.  The query `DROP TABLE users` is refused without a database
query. -/
theorem keyword_letters_pass_the_query_check :
    isSelectShowOrDescribe "SELECTED; DROP TABLE t" = false ∧
    isSelectShowOrDescribe "SELECT * FROM t" = true ∧
    (∀ env : QueryEnv,
      (executeQuery env selectedRequest).2 = ["SELECTED; DROP TABLE t LIMIT 100"]) ∧
    (∀ env : QueryEnv,
      (executeQuery env selectedRequest).1 =
        runStatement env "SELECTED; DROP TABLE t LIMIT 100") ∧
    (∀ env : QueryEnv,
      executeQuery env dropRequest = (.error "只允许执行 SELECT、SHOW 和 DESCRIBE 查询", [])) := by
  have h1 : ∀ env : QueryEnv, executeQuery env selectedRequest =
      (runStatement env ("SELECTED; DROP TABLE t" ++ " LIMIT " ++ String.mk (renderInt 100)),
        ["SELECTED; DROP TABLE t" ++ " LIMIT " ++ String.mk (renderInt 100)]) :=
    fun env => rfl
  have h2 : "SELECTED; DROP TABLE t" ++ " LIMIT " ++ String.mk (renderInt 100) =
      "SELECTED; DROP TABLE t LIMIT 100" := by
    rw [renderInt_hundred]
    rfl
  refine ⟨by decide, by decide, fun env => ?_, fun env => ?_, fun env => rfl⟩
  · rw [h1 env, h2]
  · rw [h1 env, h2]

/-- C18, the code at the failing input: the query `SELECT * FROM limits` has no LIMIT clause
(the word LIMIT does not occur in it), the limit argument is 5, and yet the statement handed
to the database is the query unchanged, without ` LIMIT 5`, because the upper-cased query
contains the letters LIMIT in the table name.  The query `SELECT * FROM t` with the same limit
is sent with ` LIMIT 5`. -/
theorem limit_letters_suppress_the_cap :
    hasLimitWord none "SELECT * FROM limits".toList = false ∧
    (∀ env : QueryEnv, limitArgument env limitsRequest = 5) ∧
    (∀ env : QueryEnv, (executeQuery env limitsRequest).2 = ["SELECT * FROM limits"]) ∧
    (∀ env : QueryEnv, (executeQuery env cappedRequest).2 = ["SELECT * FROM t LIMIT 5"]) := by
  refine ⟨by decide, fun env => rfl, fun env => rfl, fun env => ?_⟩
  have h1 : (executeQuery env cappedRequest).2 =
      ["SELECT * FROM t" ++ " LIMIT " ++ String.mk (renderInt 5)] := rfl
  rw [h1, renderInt_five]
  rfl

/-! ## `forceBrowserReadHandler` -/

/-- C19, the code at the failing inputs: without a `url` argument, or with one that is not a
string, the type assertion `req["url"].(string)` panics and no tool result is returned.  With
the empty string the handler returns the error result, and with a URL the text result with
that URL and the three steps in order. -/
theorem force_browser_read_panics_without_url :
    forceBrowserReadHandler GoMap.empty =
      .error "interface conversion: interface \x7b\x7d is nil, not string" ∧
    forceBrowserReadHandler numberUrlRequest =
      .error "interface conversion: interface \x7b\x7d is float64, not string" ∧
    forceBrowserReadHandler emptyUrlRequest = .ok (.error "url 参数是必需的") ∧
    forceBrowserReadHandler pageRequest =
      .ok (.text { message := "请使用 chrome-devtools-mcp 来打开并读取此网页",
                   url := "https://example.test/page",
                   next_steps := ["browser.navigate(url)", "browser.wait_for_dom()",
                                  "browser.get_html()"] }) :=
  ⟨rfl, rfl, rfl, rfl⟩

end Mcp
